import Mathlib

/-!
Verification of the grazing-intelligence compute/provenance core
(`grc_pipeline`): a shallow embedding in Lean 4 of the pure content of

  * `store/manifest.py`   (canonical JSON serializer, snapshot identity)
  * `logic/days_remaining.py` (formula and move-date floor)
  * `cli.py::compute`     (idempotent, conflict-detecting ledger write)
  * `ingest/features.py`  (partition-replace feature materializer)
  * `ingest/herd.py`      (herd-configuration upsert)
  * `quality/monitoring.py` (output monitor, percentile)

Modelling conventions:
  * Python floats are modelled as exact rationals (`ℚ`); SQLite INTEGER as
    `ℤ`/`ℕ`, TEXT as `String`, NULLable columns as `Option`.
  * `hashlib.sha256` is an external library primitive; it is modelled as an
    abstract function parameter `sha : String → String` (determinism is all
    the development relies on).
  * SQLite tables are lists of row records; `exec_one`/`LIMIT 1` is
    `List.find?`; transactions roll back on error, which the model renders by
    returning `Except.error` without a successor state.
  * Calendar dates in the recommendation-compute path are proleptic Gregorian
    triples with real day arithmetic (`datetime.date` + `timedelta`); in the
    materializer and monitor models, where only successor/ordering structure
    of days is used (`date(d, '+1 day')`, `BETWEEN`, day differences), dates
    are abstracted to integer day numbers.
-/

namespace GRC

/-! ## Calendar: proleptic Gregorian dates (`datetime.date`, `timeutil.py`) -/

/-- A calendar date, as `datetime.date(year, month, day)`. -/
structure Date where
  year : ℕ
  month : ℕ
  day : ℕ
deriving DecidableEq, Repr

/-- Gregorian leap-year rule (as used by `datetime.date`). -/
def leapYear (y : ℕ) : Bool :=
  (y % 4 == 0 && y % 100 != 0) || y % 400 == 0

/-- Days in a Gregorian month. -/
def daysInMonth (y m : ℕ) : ℕ :=
  if m = 2 then (if leapYear y then 29 else 28)
  else if m = 4 ∨ m = 6 ∨ m = 9 ∨ m = 11 then 30
  else 31

/-- The successor day of a date. -/
def nextDay (d : Date) : Date :=
  if d.day < daysInMonth d.year d.month then ⟨d.year, d.month, d.day + 1⟩
  else if d.month < 12 then ⟨d.year, d.month + 1, 1⟩
  else ⟨d.year + 1, 1, 1⟩

/-- `d + timedelta(days=n)` for `n ≥ 0` (the only case the code uses). -/
def addDays (d : Date) : ℕ → Date
  | 0 => d
  | n + 1 => nextDay (addDays d n)

/-- Zero-pad a numeral to two digits. -/
def pad2 (n : ℕ) : String :=
  if n < 10 then "0" ++ toString n else toString n

/-- Zero-pad a numeral to four digits. -/
def pad4 (n : ℕ) : String :=
  if n < 10 then "000" ++ toString n
  else if n < 100 then "00" ++ toString n
  else if n < 1000 then "0" ++ toString n
  else toString n

/-- `date.isoformat()`: `YYYY-MM-DD`. -/
def Date.toIso (d : Date) : String :=
  pad4 d.year ++ "-" ++ pad2 d.month ++ "-" ++ pad2 d.day

/-! ## Canonical JSON values and `stable_json_dumps` (`store/manifest.py`)

JSON-representable Python values.  Finite floats carry their exact rational
value; the IEEE-754 non-finite values `nan`, `inf`, `-inf` are separate
constructors (Python's `json.dumps` treats them specially).  Arrays and
objects are mutual inductives so that all functions below are structurally
recursive (and hence kernel-evaluable). -/

mutual
inductive JVal where
  | jnull
  | jbool (b : Bool)
  | jint (n : ℤ)
  | jnum (q : ℚ)
  | jnan
  | jinf
  | jninf
  | jstr (s : String)
  | jarr (xs : JArr)
  | jobj (kvs : JObj)
inductive JArr where
  | nil
  | cons (v : JVal) (tl : JArr)
inductive JObj where
  | nil
  | cons (k : String) (v : JVal) (tl : JObj)
end

/-- Build a JSON array node from a list. -/
def JArr.ofList : List JVal → JArr
  | [] => .nil
  | v :: tl => .cons v (JArr.ofList tl)

/-- Build a JSON object node from a key/value list (Python dict literal). -/
def JObj.ofList : List (String × JVal) → JObj
  | [] => .nil
  | (k, v) :: tl => .cons k v (JObj.ofList tl)

/-- A JSON array from a list literal. -/
def jarrL (xs : List JVal) : JVal := .jarr (JArr.ofList xs)

/-- A JSON object from a key/value list literal. -/
def jobjL (kvs : List (String × JVal)) : JVal := .jobj (JObj.ofList kvs)

/-- Lexicographic strict comparison of character lists by code point —
Python's `str` `<`. -/
def clistLt : List Char → List Char → Bool
  | [], [] => false
  | [], _ :: _ => true
  | _ :: _, [] => false
  | a :: as, b :: bs => if a < b then true else if b < a then false else clistLt as bs

/-- Python string `<` (code-point lexicographic). -/
def strLtB (a b : String) : Bool := clistLt a.data b.data

/-- The entry ordering used when serializing an object with `sort_keys=True`:
compare entries by key; `a ≤ b` is `¬ b < a`. -/
def entryLE (a b : String × String) : Bool := !(strLtB b.1 a.1)

/-- Insert an entry into a key-sorted entry list. -/
def insertEntry (e : String × String) : List (String × String) → List (String × String)
  | [] => [e]
  | f :: tl => if entryLE e f then e :: f :: tl else f :: insertEntry e tl

/-- Sort object entries by key ascending (`sort_keys=True`; a stable sort,
like Python's). -/
def sortEntries : List (String × String) → List (String × String)
  | [] => []
  | e :: tl => insertEntry e (sortEntries tl)

/-- Escape one character inside a JSON string literal, as CPython's
`json.dumps(..., ensure_ascii=False)` does: only the quote, the backslash and
control characters are escaped. -/
def escChar (c : Char) : String :=
  if c = '"' then "\\\""
  else if c = '\\' then "\\\\"
  else if c = Char.ofNat 10 then "\\n"
  else if c = Char.ofNat 13 then "\\r"
  else if c = Char.ofNat 9 then "\\t"
  else if c = Char.ofNat 8 then "\\b"
  else if c = Char.ofNat 12 then "\\f"
  else if c.toNat < 32 then
    "\\u00" ++ String.singleton (Nat.digitChar (c.toNat / 16))
      ++ String.singleton (Nat.digitChar (c.toNat % 16))
  else String.singleton c

/-- Serialize a Python `str` as a JSON string literal. -/
def jquote (s : String) : String :=
  "\"" ++ String.join (s.data.map escChar) ++ "\""

/-- Rendering of a finite float value.  CPython renders the shortest decimal
string that round-trips; the model abstracts this as an injective rendering
of the exact rational value (integral floats are rendered like CPython,
e.g. `365.0`). -/
def floatRepr (q : ℚ) : String :=
  if q.den = 1 then toString q.num ++ ".0"
  else toString q.num ++ "/" ++ toString q.den

mutual
/-- `json.dumps(v, sort_keys=True, separators=(",", ":"), ensure_ascii=False)`:
whitespace-free, keys sorted recursively.  `allow_nan` is left at its default
`True`, so non-finite floats are serialized as the tokens
`NaN` / `Infinity` / `-Infinity` (not rejected). -/
def serialize : JVal → String
  | .jnull => "null"
  | .jbool true => "true"
  | .jbool false => "false"
  | .jint n => toString n
  | .jnum q => floatRepr q
  | .jnan => "NaN"
  | .jinf => "Infinity"
  | .jninf => "-Infinity"
  | .jstr s => jquote s
  | .jarr xs => "[" ++ String.intercalate "," (serializeArr xs) ++ "]"
  | .jobj kvs => "\x7b" ++ String.intercalate ","
      ((sortEntries (serializeObj kvs)).map (fun p => jquote p.1 ++ ":" ++ p.2))
      ++ "\x7d"
/-- The serialized elements of an array node, in order. -/
def serializeArr : JArr → List String
  | .nil => []
  | .cons v tl => serialize v :: serializeArr tl
/-- The `(key, serialized value)` entries of an object node, in insertion
order (sorting happens at the enclosing `serialize` call, exactly as
`json.dumps` sorts `dict` items before emitting them). -/
def serializeObj : JObj → List (String × String)
  | .nil => []
  | .cons k v tl => (k, serialize v) :: serializeObj tl
end

/-- `stable_json_dumps` from `store/manifest.py`. -/
def stable_json_dumps (v : JVal) : String := serialize v

/-! ## `config.py::PipelineConfig` (field defaults are the source's) -/

structure PipelineConfig where
  weather_stale_days : ℤ := 7
  rap_stale_days : ℤ := 120
  max_days_remaining : ℚ := 365
  min_days_remaining : ℚ := 0
  openmeteo_source_version : String := "openmeteo:v1"
  monitor_zero_days_warn_pct : ℚ := 2/100
  monitor_zero_days_crit_pct : ℚ := 10/100
  monitor_over_max_warn_pct : ℚ := 1/100
  monitor_over_max_crit_pct : ℚ := 5/100
  monitor_rap_p95_stale_warn_days : ℤ := 150
  monitor_rap_p95_stale_crit_days : ℤ := 240

end GRC

namespace GRC

/-! ## Database rows and state for the compute engine

Rows mirror the SQLite schema; `exec_one(... LIMIT 1)` is `List.find?`;
the `grazing_recommendations` autoincrement id is `next_rec_id`. -/

/-- A `geographic_boundaries` row (the columns the compute engine reads). -/
structure BoundaryRow where
  boundary_id : String
  geometry_geojson : Option String
deriving DecidableEq

/-- A `herd_configurations` row. -/
structure HerdRow where
  id : String
  ranch_id : String
  pasture_id : Option String
  boundary_id : Option String
  animal_count : ℤ
  animal_type : Option String
  daily_intake_kg_per_head : ℚ
  avg_daily_gain_kg : Option ℚ
  config_snapshot_json : Option String
  valid_from : Option String
  valid_to : Option String
  created_at : Option String
deriving DecidableEq

/-- A `boundary_daily_features` row (full column set of `features.py`). -/
structure FeatRow where
  boundary_id : String
  feature_date : Date
  rap_composite_date : Option String
  rap_biomass_kg_per_ha : Option ℚ
  rap_source_version : Option String
  weather_precipitation_mm : Option ℚ
  weather_temp_max_c : Option ℚ
  weather_temp_min_c : Option ℚ
  weather_wind_speed_kmh : Option ℚ
  weather_source_version : Option String
  soil_productivity_index_mean : Option ℚ
  soil_available_water_capacity_mean : Option ℚ
  soil_source_version : Option String
  area_ha : Option ℚ
  created_at : String
deriving DecidableEq

/-- A `grazing_recommendations` ledger row. -/
structure RecoRow where
  id : ℕ
  boundary_id : String
  herd_config_id : String
  calculation_date : Date
  available_forage_kg : ℚ
  daily_consumption_kg : ℚ
  days_of_grazing_remaining : ℚ
  recommended_move_date : String
  model_version : String
  config_version : String
  input_data_versions_json : Option String
  created_at : String
deriving DecidableEq

/-- The database state the compute engine touches.  (The `model_versions`
registry is written insert-if-absent and never read back by the engine; it is
not modelled.) -/
structure DB where
  boundaries : List BoundaryRow
  herds : List HerdRow
  features : List FeatRow
  recos : List RecoRow
  next_rec_id : ℕ

/-- `SELECT ... FROM geographic_boundaries WHERE boundary_id=?`. -/
def dbFindBoundary (st : DB) (bid : String) : Option BoundaryRow :=
  st.boundaries.find? (fun b => decide (b.boundary_id = bid))

/-- `SELECT ... FROM herd_configurations WHERE id=?`. -/
def dbFindHerd (st : DB) (hid : String) : Option HerdRow :=
  st.herds.find? (fun h => decide (h.id = hid))

/-- `SELECT ... FROM boundary_daily_features WHERE boundary_id=? AND feature_date=? LIMIT 1`. -/
def dbFindFeature (st : DB) (bid : String) (d : Date) : Option FeatRow :=
  st.features.find? (fun f => decide (f.boundary_id = bid ∧ f.feature_date = d))

/-- Error kinds of a single compute invocation (`typer.BadParameter`,
`ValueError` and `RuntimeError` sites of `cli.py::compute` and
`logic/days_remaining.py`).  The enclosing transaction rolls back on error, so
an error carries no successor state. -/
inductive PipelineError where
  | unknownBoundary
  | unknownHerd
  | missingFeature
  | readBackFailed
  | provenanceDrift
deriving DecidableEq

/-! ## `logic/days_remaining.py` -/

/-- Result record `GrazingCalc`. -/
structure GrazingCalc where
  available_forage_kg : ℚ
  daily_consumption_kg : ℚ
  days_remaining : ℚ
  recommended_move_date : String
deriving DecidableEq

/-- `daily_consumption_kg(animal_count, daily_intake_kg_per_head)`. -/
def daily_consumption_kg (animal_count : ℤ) (daily_intake_kg_per_head : ℚ) : ℚ :=
  (animal_count : ℚ) * daily_intake_kg_per_head

/-- `compute_days_remaining`: 0 when consumption is non-positive, else the
exact quotient. -/
def compute_days_remaining (available_forage_kg daily_consumption_kg : ℚ) : ℚ :=
  if daily_consumption_kg ≤ 0 then 0 else available_forage_kg / daily_consumption_kg

/-- `recommend_move_date`: `int(max(0.0, days_remaining))` truncates toward
zero, which on the non-negative argument is the floor; that many whole days
are added to the calculation date. -/
def recommend_move_date (calc_date : Date) (days_remaining : ℚ) : String :=
  (addDays calc_date (Int.toNat ⌊max 0 days_remaining⌋)).toIso

/-- `None`-valued (or falsy) JSON leaves: `x or default` on an optional
string.  Note Python's `or` also replaces the empty string by the default. -/
def pyOrStr (o : Option String) (d : String) : String :=
  match o with
  | some s => if s = "" then d else s
  | none => d

/-- Optional TEXT column as a JSON value. -/
def optStrJ : Option String → JVal
  | none => .jnull
  | some s => .jstr s

/-- Optional REAL column as a JSON value. -/
def optNumJ : Option ℚ → JVal
  | none => .jnull
  | some q => .jnum q

/-- The `features_row` provenance dict built by `compute_available_forage_kg`.
`float(x or 0.0)` on a nullable REAL is `Option.getD 0` (0.0 is falsy and maps
to itself). -/
def provAvailJ (as_of : Date) (feat : FeatRow) : JVal :=
  jobjL [("features_row", jobjL
    [("feature_date", .jstr as_of.toIso),
     ("rap_composite_date", optStrJ feat.rap_composite_date),
     ("rap_biomass_kg_per_ha", .jnum (feat.rap_biomass_kg_per_ha.getD 0)),
     ("area_ha", .jnum (feat.area_ha.getD 0)),
     ("rap_source_version", optStrJ feat.rap_source_version),
     ("soil_source_version", optStrJ feat.soil_source_version),
     ("weather_source_version", optStrJ feat.weather_source_version)])]

/-- `compute_available_forage_kg`: reads the materialized feature row
(fatal when absent), coerces NULL biomass/area to 0.0, multiplies. -/
def compute_available_forage_kg (st : DB) (bid : String) (as_of : Date) :
    Except PipelineError (ℚ × JVal) :=
  match dbFindFeature st bid as_of with
  | none => .error .missingFeature
  | some feat =>
    .ok ((feat.rap_biomass_kg_per_ha.getD 0) * (feat.area_ha.getD 0), provAvailJ as_of feat)

/-- `compute_grazing_recommendation`. -/
def compute_grazing_recommendation (st : DB) (bid hid : String) (calculation_date : Date) :
    Except PipelineError (GrazingCalc × JVal) :=
  match dbFindHerd st hid with
  | none => .error .unknownHerd
  | some herd =>
    match compute_available_forage_kg st bid calculation_date with
    | .error e => .error e
    | .ok (available, prov_avail) =>
      let daily := daily_consumption_kg herd.animal_count herd.daily_intake_kg_per_head
      let days := compute_days_remaining available daily
      let move := recommend_move_date calculation_date days
      .ok (⟨available, daily, days, move⟩,
        jobjL [("inputs", prov_avail),
               ("herd", jobjL [("id", .jstr hid)]),
               ("calculation_date", .jstr calculation_date.toIso)])

end GRC

namespace GRC

/-! ## `cli.py::compute`: JSON builders for provenance and manifest -/

/-- `ds_params`: the guardrail parameters hashed into `config_hash`. -/
def dsParamsJ (cfg : PipelineConfig) : JVal :=
  jobjL [("max_days_remaining", .jnum cfg.max_days_remaining),
         ("min_days_remaining", .jnum cfg.min_days_remaining)]

/-- The `idempotency_key` dict. -/
def idempotencyKeyJ (bid hid : String) (as_of : Date) (logic_version config_hash : String) : JVal :=
  jobjL [("boundary_id", .jstr bid),
         ("herd_config_id", .jstr hid),
         ("as_of", .jstr as_of.toIso),
         ("logic_version", .jstr logic_version),
         ("config_hash", .jstr config_hash)]

/-- `input_versions`: the thin indexed provenance stored in the DB. -/
def inputVersionsJ (feat : FeatRow) : JVal :=
  jobjL [("rap", jobjL [("source_version", optStrJ feat.rap_source_version),
                        ("as_of_composite_date", optStrJ feat.rap_composite_date)]),
         ("soil", jobjL [("source_version", optStrJ feat.soil_source_version)]),
         ("weather", jobjL [("source_version", optStrJ feat.weather_source_version)])]

/-- `feat_dict`: the full `SELECT *` feature row as a dict. -/
def featDictJ (feat : FeatRow) : JVal :=
  jobjL [("boundary_id", .jstr feat.boundary_id),
         ("feature_date", .jstr feat.feature_date.toIso),
         ("rap_composite_date", optStrJ feat.rap_composite_date),
         ("rap_biomass_kg_per_ha", optNumJ feat.rap_biomass_kg_per_ha),
         ("rap_source_version", optStrJ feat.rap_source_version),
         ("weather_precipitation_mm", optNumJ feat.weather_precipitation_mm),
         ("weather_temp_max_c", optNumJ feat.weather_temp_max_c),
         ("weather_temp_min_c", optNumJ feat.weather_temp_min_c),
         ("weather_wind_speed_kmh", optNumJ feat.weather_wind_speed_kmh),
         ("weather_source_version", optStrJ feat.weather_source_version),
         ("soil_productivity_index_mean", optNumJ feat.soil_productivity_index_mean),
         ("soil_available_water_capacity_mean", optNumJ feat.soil_available_water_capacity_mean),
         ("soil_source_version", optStrJ feat.soil_source_version),
         ("area_ha", optNumJ feat.area_ha),
         ("created_at", .jstr feat.created_at)]

/-- `inputs_snapshot`: the full input snapshot stored in the manifest.
`int(x or 0)` / `float(x or 0.0)` on the NOT NULL herd columns are identity
on the stored value (0 maps to 0). -/
def inputsSnapshotJ (bid boundary_hash hid herd_hash : String) (h : HerdRow)
    (feat : FeatRow) (prov : JVal) (cfg : PipelineConfig) (config_hash : String) : JVal :=
  jobjL [("boundary", jobjL [("boundary_id", .jstr bid),
                             ("boundary_geojson_hash", .jstr boundary_hash)]),
         ("herd", jobjL [("herd_config_id", .jstr hid),
                         ("herd_snapshot_hash", .jstr herd_hash),
                         ("animal_count", .jint h.animal_count),
                         ("daily_intake_kg_per_head", .jnum h.daily_intake_kg_per_head)]),
         ("features_row", featDictJ feat),
         ("logic_provenance", prov),
         ("data_snapshot_versions", inputVersionsJ feat),
         ("config", jobjL [("ds_params", dsParamsJ cfg),
                           ("config_hash", .jstr config_hash)])]

/-- Python `dict.get` on a JSON object. -/
def jObjGet : JObj → String → Option JVal
  | .nil, _ => none
  | .cons k' v tl, k => if k' = k then some v else jObjGet tl k

/-- `v.get(k)` (None when `v` is not a dict or lacks the key). -/
def jGet (v : JVal) (k : String) : Option JVal :=
  match v with
  | .jobj kvs => jObjGet kvs k
  | _ => none

/-- Python truthiness of a JSON-representable value. -/
def jTruthy : JVal → Bool
  | .jnull => false
  | .jbool b => b
  | .jint n => decide (n ≠ 0)
  | .jnum q => decide (q ≠ 0)
  | .jnan => true
  | .jinf => true
  | .jninf => true
  | .jstr s => decide (s ≠ "")
  | .jarr .nil => false
  | .jarr (.cons _ _) => true
  | .jobj .nil => false
  | .jobj (.cons _ _ _) => true

/-- The `dq` quality summary: guardrail range check (non-fatal),
`has_rap = bool((prov or {}).get("inputs", {}).get("rap"))`. -/
def dqJ (cfg : PipelineConfig) (days_remaining : ℚ) (prov : JVal) : JVal :=
  jobjL [("guardrails", jobjL [("days_remaining_in_range",
           .jbool (decide (cfg.min_days_remaining ≤ days_remaining
                            ∧ days_remaining ≤ cfg.max_days_remaining)))]),
         ("has_features_row", .jbool true),
         ("has_rap", .jbool
           (match jGet ((jGet (if jTruthy prov then prov else jobjL []) "inputs").getD (jobjL [])) "rap" with
            | none => false
            | some v => jTruthy v))]

/-- The `outputs` dict. -/
def outputsJ (gcalc : GrazingCalc) : JVal :=
  jobjL [("available_forage_kg", .jnum gcalc.available_forage_kg),
         ("daily_consumption_kg", .jnum gcalc.daily_consumption_kg),
         ("days_of_grazing_remaining", .jnum gcalc.days_remaining),
         ("recommended_move_date", .jstr gcalc.recommended_move_date)]

/-- `RunManifest.snapshot_material()`: the hashed material of the manifest —
code identity reduced to `git_commit`/`package_version`, timestamps excluded. -/
def snapshotMaterialJ (git pkg run_id : String) (idem inputs dq outputs : JVal) : JVal :=
  jobjL [("schema_version", .jint 1),
         ("run_type", .jstr "compute_recommendation"),
         ("run_id", .jstr run_id),
         ("code_version", jobjL [("git_commit", .jstr git),
                                 ("package_version", .jstr pkg)]),
         ("idempotency_key", idem),
         ("inputs", inputs),
         ("dq_summary", dq),
         ("outputs", outputs)]

/-- The thin DB `payload` (`input_data_versions_json`). -/
def payloadJ (snap_id out_path : String) (feat : FeatRow)
    (boundary_hash herd_hash logic_version : String) (cfg : PipelineConfig)
    (config_hash : String) (idem : JVal) (git pkg inputs_snapshot_hash : String) : JVal :=
  jobjL [("schema_version", .jint 1),
         ("manifest", jobjL [("snapshot_id", .jstr snap_id), ("path", .jstr out_path)]),
         ("data_snapshot", inputVersionsJ feat),
         ("boundary_geojson_hash", .jstr boundary_hash),
         ("herd_snapshot_hash", .jstr herd_hash),
         ("logic_version", .jstr logic_version),
         ("ds_params", dsParamsJ cfg),
         ("config_hash", .jstr config_hash),
         ("idempotency_key", idem),
         ("code_version", jobjL [("git_commit", .jstr git), ("package_version", .jstr pkg)]),
         ("inputs_snapshot_hash", .jstr inputs_snapshot_hash)]

/-- What one compute invocation echoes back (`typer.echo` payload). -/
structure ComputeOut where
  recommendation_id : ℕ
  snapshot_id : String
  manifest_path : String
  run_id : String
  logic_version : String
  config_hash : String
deriving DecidableEq

/-- The 5-tuple idempotency predicate of the unique index
`(boundary_id, herd_config_id, calculation_date, model_version, config_version)`. -/
def recMatches (bid hid : String) (d : Date) (mv cv : String) (r : RecoRow) : Bool :=
  decide (r.boundary_id = bid ∧ r.herd_config_id = hid ∧ r.calculation_date = d
           ∧ r.model_version = mv ∧ r.config_version = cv)

/-- `cli.py::compute`, one transaction.  `sha` is the abstract sha256 hex
digest; `git`/`pkg` the code metadata; `now = utc_now_iso()`.  The
`ON CONFLICT ... DO NOTHING` insert is the conditional append (the unique
index makes it equivalent); manifest-file writing is filesystem-only and the
returned `manifest_path` is what the claims inspect. -/
def compute (sha : String → String) (git pkg : String) (cfg : PipelineConfig) (now : String)
    (bid hid : String) (as_of : Date) (logic_version manifest_out : String)
    (st : DB) : Except PipelineError (DB × ComputeOut) :=
  let config_hash := sha (stable_json_dumps (dsParamsJ cfg))
  let idem := idempotencyKeyJ bid hid as_of logic_version config_hash
  let run_id := (sha (stable_json_dumps idem)).take 32
  match dbFindBoundary st bid with
  | none => .error .unknownBoundary
  | some b =>
    let boundary_hash := sha (b.geometry_geojson.getD "")
    match dbFindHerd st hid with
    | none => .error .unknownHerd
    | some h =>
      let herd_hash := sha (pyOrStr h.config_snapshot_json "\x7b\x7d")
      match dbFindFeature st bid as_of with
      | none => .error .missingFeature
      | some feat =>
        match compute_grazing_recommendation st bid hid as_of with
        | .error e => .error e
        | .ok (gcalc, prov) =>
          let inputs_snapshot := inputsSnapshotJ bid boundary_hash hid herd_hash h feat prov cfg config_hash
          let dq := dqJ cfg gcalc.days_remaining prov
          let snap_id := sha (stable_json_dumps
            (snapshotMaterialJ git pkg run_id idem inputs_snapshot dq (outputsJ gcalc)))
          let out_path := manifest_out ++ "/" ++ bid ++ "/" ++ as_of.toIso ++ "_" ++ snap_id ++ ".json"
          let payload := stable_json_dumps
            (payloadJ snap_id out_path feat boundary_hash herd_hash logic_version cfg
              config_hash idem git pkg (sha (stable_json_dumps inputs_snapshot)))
          let pred := recMatches bid hid as_of logic_version config_hash
          let newRow : RecoRow :=
            ⟨st.next_rec_id, bid, hid, as_of, gcalc.available_forage_kg,
             gcalc.daily_consumption_kg, gcalc.days_remaining, gcalc.recommended_move_date,
             logic_version, config_hash, some payload, now⟩
          let recos' := if (st.recos.find? pred).isSome then st.recos else st.recos ++ [newRow]
          let next' := if (st.recos.find? pred).isSome then st.next_rec_id else st.next_rec_id + 1
          match recos'.find? pred with
          | none => .error .readBackFailed
          | some rec =>
            let existing_payload := rec.input_data_versions_json.getD ""
            if existing_payload ≠ "" ∧ existing_payload ≠ payload then .error .provenanceDrift
            else .ok ({ st with recos := recos', next_rec_id := next' },
              ⟨rec.id, snap_id, out_path, run_id, logic_version, config_hash⟩)

end GRC

namespace GRC

/-! ## `ingest/features.py::materialize_boundary_daily_features`

Calendar days are abstracted to integer day numbers: the SQLite recursive CTE
`date(d, '+1 day')` is `d + 1` and `BETWEEN` is the integer interval.  Python
calls the range bounds `start`/`end`; `end` is a Lean keyword, so the model
uses `stop`. -/

/-- A `geographic_boundaries` row as the materializer reads it. -/
structure MatBoundaryRow where
  boundary_id : String
  area_ha : Option ℚ

/-- A `rap_biomass` row. -/
structure RapRow where
  boundary_id : String
  composite_date : ℤ
  biomass_kg_per_ha : Option ℚ
  source_version : Option String

/-- A `weather_forecasts` row. -/
structure WeatherRow where
  boundary_id : String
  forecast_date : ℤ
  source_version : String
  precipitation_mm : Option ℚ
  temp_max_c : Option ℚ
  temp_min_c : Option ℚ
  wind_speed_kmh : Option ℚ

/-- A `nrcs_soil_data` row. -/
structure SoilRow where
  boundary_id : String
  productivity_index : Option ℚ
  available_water_capacity : Option ℚ
  source_version : Option String
  ingested_at : String

/-- A materialized `boundary_daily_features` row (integer feature date). -/
structure MatFeatRow where
  boundary_id : String
  feature_date : ℤ
  rap_composite_date : Option ℤ
  rap_biomass_kg_per_ha : Option ℚ
  rap_source_version : Option String
  weather_precipitation_mm : Option ℚ
  weather_temp_max_c : Option ℚ
  weather_temp_min_c : Option ℚ
  weather_wind_speed_kmh : Option ℚ
  weather_source_version : String
  soil_productivity_index_mean : Option ℚ
  soil_available_water_capacity_mean : Option ℚ
  soil_source_version : Option String
  area_ha : ℚ
  created_at : String

/-- The tables the materializer touches. -/
structure FeatDB where
  boundaries : List MatBoundaryRow
  rap_biomass : List RapRow
  weather_forecasts : List WeatherRow
  nrcs_soil_data : List SoilRow
  features : List MatFeatRow

/-- `MaterializeResult`. -/
structure MaterializeResult where
  inserted : ℕ
  missing_weather_days : ℕ
  missing_rap_days : ℕ
deriving DecidableEq

/-- The as-of biomass subquery: latest `composite_date <= d` for the boundary
(`ORDER BY composite_date DESC LIMIT 1`; on equal composite dates SQLite's
pick is unspecified — the fold keeps the first of the tied rows). -/
def rapAsOf (rows : List RapRow) (bid : String) (d : ℤ) : Option RapRow :=
  (rows.filter (fun r => decide (r.boundary_id = bid ∧ r.composite_date ≤ d))).foldl
    (fun acc r =>
      match acc with
      | none => some r
      | some best => if best.composite_date < r.composite_date then some r else some best)
    none

/-- SQL `AVG`: ignores NULLs, NULL on an empty (or all-NULL) column. -/
def sqlAvg (vals : List ℚ) : Option ℚ :=
  if vals.isEmpty then none else some (vals.sum / (vals.length : ℚ))

/-- `ORDER BY ingested_at DESC LIMIT 1` over the boundary's soil rows. -/
def latestSoil (rows : List SoilRow) : Option SoilRow :=
  rows.foldl
    (fun acc r =>
      match acc with
      | none => some r
      | some best => if strLtB best.ingested_at r.ingested_at then some r else some best)
    none

/-- The dates produced by the recursive CTE: it always seeds `start` and then
appends successor days while `d < end`, so `[start, …, end]` when
`start ≤ end` and just `[start]` otherwise. -/
def dateRangeZ (start stop : ℤ) : List ℤ :=
  (List.range ((stop - start).toNat + 1)).map (fun k : ℕ => start + (k : ℤ))

/-- One rebuilt feature row for day `d` (the joined SELECT row plus the
statics, exactly the columns the INSERT writes; note the INSERT stores the
`weather_source_version` *parameter*). -/
def matRowFor (st : FeatDB) (bid wsv : String) (area : ℚ) (pi awc : Option ℚ)
    (ssv : Option String) (created_at : String) (d : ℤ) : MatFeatRow :=
  let rap := rapAsOf st.rap_biomass bid d
  let w := st.weather_forecasts.find?
    (fun r => decide (r.boundary_id = bid ∧ r.source_version = wsv ∧ r.forecast_date = d))
  { boundary_id := bid
    feature_date := d
    rap_composite_date := rap.map (fun r => r.composite_date)
    rap_biomass_kg_per_ha := rap.bind (fun r => r.biomass_kg_per_ha)
    rap_source_version := rap.bind (fun r => r.source_version)
    weather_precipitation_mm := w.bind (fun r => r.precipitation_mm)
    weather_temp_max_c := w.bind (fun r => r.temp_max_c)
    weather_temp_min_c := w.bind (fun r => r.temp_min_c)
    weather_wind_speed_kmh := w.bind (fun r => r.wind_speed_kmh)
    weather_source_version := wsv
    soil_productivity_index_mean := pi
    soil_available_water_capacity_mean := awc
    soil_source_version := ssv
    area_ha := area
    created_at := created_at }

/-- The insert loop: each INSERT is rejected by the table's composite PRIMARY
KEY when a `(boundary_id, feature_date)` pair is already present
(`sqlite3.IntegrityError`, which aborts the transaction). -/
def insertFeatures : List MatFeatRow → List MatFeatRow → Except String (List MatFeatRow)
  | acc, [] => .ok acc
  | acc, r :: rest =>
    if acc.any (fun x => decide (x.boundary_id = r.boundary_id ∧ x.feature_date = r.feature_date))
    then .error "UNIQUE constraint failed: boundary_daily_features"
    else insertFeatures (acc ++ [r]) rest

/-- `materialize_boundary_daily_features`: partition replace (delete the
`(boundary, [start, stop])` slice, rebuild and insert one row per day). -/
def materialize_boundary_daily_features (st : FeatDB) (bid : String) (start stop : ℤ)
    (wsv created_at : String) : Except String (FeatDB × MaterializeResult) :=
  match st.boundaries.find? (fun b => decide (b.boundary_id = bid)) with
  | none => .error "Unknown boundary_id"
  | some b =>
    let area := b.area_ha.getD 0
    let soilRows := st.nrcs_soil_data.filter (fun r => decide (r.boundary_id = bid))
    let pi := sqlAvg (soilRows.filterMap (fun r => r.productivity_index))
    let awc := sqlAvg (soilRows.filterMap (fun r => r.available_water_capacity))
    let ssv := (latestSoil soilRows).bind (fun r => r.source_version)
    let kept := st.features.filter
      (fun r => !(decide (r.boundary_id = bid ∧ start ≤ r.feature_date ∧ r.feature_date ≤ stop)))
    let newRows := (dateRangeZ start stop).map (matRowFor st bid wsv area pi awc ssv created_at)
    let missing_rap := newRows.countP (fun r => r.rap_biomass_kg_per_ha.isNone)
    let missing_weather := newRows.countP
      (fun r => r.weather_precipitation_mm.isNone && r.weather_temp_max_c.isNone
                 && r.weather_temp_min_c.isNone && r.weather_wind_speed_kmh.isNone)
    match insertFeatures kept newRows with
    | .error e => .error e
    | .ok feats => .ok ({ st with features := feats }, ⟨newRows.length, missing_weather, missing_rap⟩)

/-! ## `ingest/herd.py::upsert_herd_configs` -/

/-- An incoming parsed herd-config dict (`load_herd_configs` output shape);
numeric fields may be absent/None before the `or 0` coercions. -/
structure HerdIn where
  id : String
  ranch_id : String
  pasture_id : Option String
  boundary_id : Option String
  animal_count : Option ℤ
  animal_type : Option String
  daily_intake_kg_per_head : Option ℚ
  avg_daily_gain_kg : Option ℚ
  config_snapshot_json : Option String
  valid_from : Option String
  valid_to : Option String
  created_at : Option String

/-- The `ON CONFLICT(id) DO UPDATE SET` row: every column is overwritten from
the excluded row except `boundary_id`, which is
`COALESCE(excluded.boundary_id, existing.boundary_id)`, and `id`/`created_at`,
which are not in the SET list. -/
def applyHerdUpdate (old : HerdRow) (h : HerdIn) (ac : ℤ) (di : ℚ) : HerdRow :=
  { old with
    ranch_id := h.ranch_id
    pasture_id := h.pasture_id
    boundary_id := match h.boundary_id with
                   | some b => some b
                   | none => old.boundary_id
    animal_count := ac
    animal_type := h.animal_type
    daily_intake_kg_per_head := di
    avg_daily_gain_kg := h.avg_daily_gain_kg
    config_snapshot_json := h.config_snapshot_json
    valid_from := h.valid_from
    valid_to := h.valid_to }

/-- One `INSERT ... ON CONFLICT(id) DO UPDATE` statement. -/
def upsertHerdOne (rows : List HerdRow) (h : HerdIn) (ac : ℤ) (di : ℚ) : List HerdRow :=
  if (rows.find? (fun r => decide (r.id = h.id))).isSome
  then rows.map (fun r => if r.id = h.id then applyHerdUpdate r h ac di else r)
  else rows ++ [⟨h.id, h.ranch_id, h.pasture_id, h.boundary_id, ac, h.animal_type, di,
                h.avg_daily_gain_kg, h.config_snapshot_json, h.valid_from, h.valid_to,
                h.created_at⟩]

/-- `upsert_herd_configs`: per incoming config, coerce `int(x or 0)` /
`float(x or 0.0)`, skip invalid configs (the hard validation gate), upsert the
rest; returns the new table and the persisted count. -/
def upsert_herd_configs (rows : List HerdRow) : List HerdIn → List HerdRow × ℕ
  | [] => (rows, 0)
  | h :: rest =>
    let ac := h.animal_count.getD 0
    let di := h.daily_intake_kg_per_head.getD 0
    if ac ≤ 0 ∨ di ≤ 0 then upsert_herd_configs rows rest
    else
      let res := upsert_herd_configs (upsertHerdOne rows h ac di) rest
      (res.1, res.2 + 1)

end GRC

namespace GRC

/-! ## `quality/monitoring.py::run_output_monitoring`

Dates are integer day numbers (the Python subtracts parsed ISO dates and
takes `.days`).  A ledger row enters the model with the *result* of parsing
its stored provenance: `rap_composite_date = none` stands for a payload that
cannot be parsed as JSON, lacks `data_snapshot.rap.as_of_composite_date`, or
has a falsy/garbled date there — the `try/except + continue` path.  Alert
`details` dicts are carried nowhere in any claim and are omitted from the
alert record. -/

/-- A `grazing_recommendations` row as the monitor reads it. -/
structure MonRow where
  boundary_id : String
  calculation_date : ℤ
  days_of_grazing_remaining : ℚ
  rap_composite_date : Option ℤ
deriving DecidableEq

/-- `MonitorAlert` (name, severity, passed). -/
structure MonitorAlert where
  name : String
  severity : String
  passed : Bool
deriving DecidableEq

/-- The monitoring report (`metrics` flattened into fields). -/
structure MonReport where
  boundary_id : String
  status : String
  n_recommendations : ℕ
  pct_zero_or_negative_days_remaining : ℚ
  pct_over_max_days_remaining : ℚ
  rap_p95_staleness_days : Option ℤ
  alerts : List MonitorAlert

/-- `_pct(n, d)`. -/
def pctMetric (n d : ℕ) : ℚ :=
  if d ≤ 0 then 0 else (n : ℚ) / (d : ℚ)

/-- Python's `round` to the nearest integer, ties to even.  (The source
rounds the float product `(n-1)*0.95`; the model rounds the exact rational.) -/
def pyRound (q : ℚ) : ℤ :=
  if q - ⌊q⌋ < 1/2 then ⌊q⌋
  else if (1/2 : ℚ) < q - ⌊q⌋ then ⌊q⌋ + 1
  else if Even ⌊q⌋ then ⌊q⌋ else ⌊q⌋ + 1

/-- `_pctl(values, p)`: nearest-rank percentile — `round((n-1)*p)` indexed
into the ascending-sorted sample, index clamped to `[0, n-1]`. -/
def pctl (values : List ℤ) (p : ℚ) : Option ℤ :=
  if values.isEmpty then none
  else
    let xs := List.insertionSort (fun a b : ℤ => a ≤ b) values
    let idx : ℤ := pyRound (((values.length : ℚ) - 1) * p)
    let idx2 := max 0 (min idx ((values.length : ℤ) - 1))
    some (xs.getD idx2.toNat 0)

/-- The RAP staleness sample: `(calculation_date − as_of_composite_date)` per
row, rows with unparseable/missing provenance dates skipped (not zeroed). -/
def staleSample (rows : List MonRow) : List ℤ :=
  rows.filterMap (fun r => r.rap_composite_date.map (fun d => r.calculation_date - d))

/-- `WHERE boundary_id=? AND calculation_date BETWEEN ? AND ?`. -/
def windowRows (rows : List MonRow) (bid : String) (start stop : ℤ) : List MonRow :=
  rows.filter (fun r =>
    decide (r.boundary_id = bid ∧ start ≤ r.calculation_date ∧ r.calculation_date ≤ stop))

/-- `run_output_monitoring`: metrics over the window, threshold alerts
(crit wins over warn, strict `>` comparisons), overall status. -/
def run_output_monitoring (cfg : PipelineConfig) (rows : List MonRow) (bid : String)
    (start stop : ℤ) : MonReport :=
  let w := windowRows rows bid start stop
  let n := w.length
  let n_zero := w.countP (fun r => decide (r.days_of_grazing_remaining ≤ 0))
  let n_over := w.countP (fun r => decide (cfg.max_days_remaining < r.days_of_grazing_remaining))
  let pct_zero := pctMetric n_zero n
  let pct_over := pctMetric n_over n
  let rap_p95 := pctl (staleSample w) (95/100)
  let alerts : List MonitorAlert :=
    if n = 0 then
      [⟨"no_recommendations_in_window", "crit", false⟩]
    else
      (if cfg.monitor_zero_days_crit_pct < pct_zero then
         [⟨"too_many_zero_days_remaining", "crit", false⟩]
       else if cfg.monitor_zero_days_warn_pct < pct_zero then
         [⟨"too_many_zero_days_remaining", "warn", false⟩]
       else
         [⟨"too_many_zero_days_remaining", "warn", true⟩])
      ++ (if cfg.monitor_over_max_crit_pct < pct_over then
            [⟨"too_many_over_max_days_remaining", "crit", false⟩]
          else if cfg.monitor_over_max_warn_pct < pct_over then
            [⟨"too_many_over_max_days_remaining", "warn", false⟩]
          else
            [⟨"too_many_over_max_days_remaining", "warn", true⟩])
      ++ (match rap_p95 with
          | none => [⟨"missing_rap_staleness_metrics", "warn", false⟩]
          | some p95 =>
            if cfg.monitor_rap_p95_stale_crit_days < p95 then
              [⟨"rap_p95_staleness_too_high", "crit", false⟩]
            else if cfg.monitor_rap_p95_stale_warn_days < p95 then
              [⟨"rap_p95_staleness_too_high", "warn", false⟩]
            else
              [⟨"rap_p95_staleness_too_high", "warn", true⟩])
  let status :=
    if alerts.any (fun a => a.severity == "crit" && !a.passed) then "crit"
    else if alerts.any (fun a => a.severity == "warn" && !a.passed) then "warn"
    else "ok"
  ⟨bid, status, n, pct_zero, pct_over, rap_p95, alerts⟩

end GRC

attribute [local semireducible] Rat.inv Rat.mul Rat.add Rat.sub Rat.ofScientific

namespace GRC

/-- The `GrazingCalc` that `compute_grazing_recommendation` produces from a
found herd row and feature row. -/
def calcOf (herd : HerdRow) (feat : FeatRow) (d : Date) : GrazingCalc :=
  ⟨(feat.rap_biomass_kg_per_ha.getD 0) * (feat.area_ha.getD 0),
   daily_consumption_kg herd.animal_count herd.daily_intake_kg_per_head,
   compute_days_remaining ((feat.rap_biomass_kg_per_ha.getD 0) * (feat.area_ha.getD 0))
     (daily_consumption_kg herd.animal_count herd.daily_intake_kg_per_head),
   recommend_move_date d
     (compute_days_remaining ((feat.rap_biomass_kg_per_ha.getD 0) * (feat.area_ha.getD 0))
       (daily_consumption_kg herd.animal_count herd.daily_intake_kg_per_head))⟩

/-- The provenance dict `compute_grazing_recommendation` produces. -/
def provOf (hid : String) (d : Date) (feat : FeatRow) : JVal :=
  jobjL [("inputs", provAvailJ d feat),
         ("herd", jobjL [("id", .jstr hid)]),
         ("calculation_date", .jstr d.toIso)]

theorem compute_grazing_recommendation_eq (st : DB) (bid hid : String) (d : Date)
    (herd : HerdRow) (feat : FeatRow)
    (hh : dbFindHerd st hid = some herd) (hf : dbFindFeature st bid d = some feat) :
    compute_grazing_recommendation st bid hid d = .ok (calcOf herd feat d, provOf hid d feat) := by
  simp only [compute_grazing_recommendation, hh, compute_available_forage_kg, hf]
  rfl

/-- The feature row used in the concrete formula checks: `area_ha = 10`,
`biomass = 100` on 2024-01-01. -/
def exFeat : FeatRow :=
  ⟨"b1", ⟨2024, 1, 1⟩, some "2024-01-01", some 100, some "rap:v1", none, none, none, none,
   some "openmeteo:v1", none, none, some "gssurgo:v1", some 10, "t0"⟩

/-- The herd used in the concrete formula checks: 10 head, 5 kg/head/day. -/
def exHerd : HerdRow :=
  ⟨"h1", "r1", some "p1", some "b1", 10, none, 5, none, some "snap", some "2024-01-01", none,
   some "t0"⟩

/-- A one-boundary, one-herd, one-feature-row database. -/
def exDB : DB :=
  ⟨[⟨"b1", some "geo"⟩], [exHerd], [exFeat], [], 1⟩

/-- Claim C3: the recommendation formulas — `available_forage_kg` is
`biomass * area`, `daily_consumption_kg` is `count * intake`,
`days_remaining` is 0 on non-positive consumption and the exact quotient
otherwise, and the move date adds `floor(max(0, days_remaining))` whole days
(fraction truncated); concretely, area 10 / biomass 100 / 10 head / 5 kg on
2024-01-01 gives forage 1000, consumption 50, 20.0 days and move date
2024-01-21, and 10.9 days from 2024-03-01 gives 2024-03-11 while 0.1 days
gives 2024-03-01. -/
theorem claim_C3_formula_correctness :
    (∀ (st : DB) (bid hid : String) (d : Date) (herd : HerdRow) (feat : FeatRow),
      dbFindHerd st hid = some herd →
      dbFindFeature st bid d = some feat →
      ∃ g prov, compute_grazing_recommendation st bid hid d = .ok (g, prov)
        ∧ g.available_forage_kg = (feat.rap_biomass_kg_per_ha.getD 0) * (feat.area_ha.getD 0)
        ∧ g.daily_consumption_kg = (herd.animal_count : ℚ) * herd.daily_intake_kg_per_head
        ∧ (g.daily_consumption_kg ≤ 0 → g.days_remaining = 0)
        ∧ (0 < g.daily_consumption_kg →
            g.days_remaining = g.available_forage_kg / g.daily_consumption_kg)
        ∧ g.recommended_move_date = (addDays d (Int.toNat ⌊max 0 g.days_remaining⌋)).toIso)
    ∧ ((compute_grazing_recommendation exDB "b1" "h1" ⟨2024, 1, 1⟩).map (fun r => r.1)
        = .ok ⟨1000, 50, 20, "2024-01-21"⟩)
    ∧ recommend_move_date ⟨2024, 3, 1⟩ (109/10) = "2024-03-11"
    ∧ recommend_move_date ⟨2024, 3, 1⟩ (1/10) = "2024-03-01" := by
  refine ⟨?_, by rfl, by decide, by decide⟩
  intro st bid hid d herd feat hh hf
  refine ⟨calcOf herd feat d, provOf hid d feat,
    compute_grazing_recommendation_eq st bid hid d herd feat hh hf, rfl, rfl, ?_, ?_, rfl⟩
  · intro hle
    have hle' : daily_consumption_kg herd.animal_count herd.daily_intake_kg_per_head ≤ 0 := hle
    show compute_days_remaining _ _ = 0
    rw [compute_days_remaining, if_pos hle']
  · intro hlt
    have hlt' : ¬ daily_consumption_kg herd.animal_count herd.daily_intake_kg_per_head ≤ 0 :=
      not_le.mpr hlt
    show compute_days_remaining _ _ = _
    rw [compute_days_remaining, if_neg hlt']
    rfl

/-- Claim C3 witness: the theorem instantiated on the concrete database. -/
theorem claim_C3_formula_correctness_witness :
    (compute_grazing_recommendation exDB "b1" "h1" ⟨2024, 1, 1⟩).map (fun r => r.1)
      = .ok ⟨1000, 50, 20, "2024-01-21"⟩
    ∧ ∃ g prov, compute_grazing_recommendation exDB "b1" "h1" ⟨2024, 1, 1⟩ = .ok (g, prov)
        ∧ g.available_forage_kg = ((some (100:ℚ)).getD 0) * ((some (10:ℚ)).getD 0) := by
  refine ⟨claim_C3_formula_correctness.2.1, ?_⟩
  obtain ⟨g, prov, hok, ha, -⟩ :=
    claim_C3_formula_correctness.1 exDB "b1" "h1" ⟨2024, 1, 1⟩ exHerd exFeat (by rfl) (by rfl)
  exact ⟨g, prov, hok, ha⟩

/-- Claim C9: a present feature row with NULL biomass or NULL area is coerced
to 0.0 (so forage and days-remaining are 0 and the computation succeeds);
only a wholly absent feature row is the fatal precondition failure. -/
theorem claim_C9_null_coercion :
    (∀ (st : DB) (bid hid : String) (d : Date) (herd : HerdRow) (feat : FeatRow),
      dbFindHerd st hid = some herd →
      dbFindFeature st bid d = some feat →
      (feat.rap_biomass_kg_per_ha = none ∨ feat.area_ha = none) →
      ∃ g prov, compute_grazing_recommendation st bid hid d = .ok (g, prov)
        ∧ g.available_forage_kg = 0 ∧ g.days_remaining = 0)
    ∧ (∀ (st : DB) (bid hid : String) (d : Date) (herd : HerdRow),
      dbFindHerd st hid = some herd →
      dbFindFeature st bid d = none →
      compute_grazing_recommendation st bid hid d = .error .missingFeature) := by
  constructor
  · intro st bid hid d herd feat hh hf hnull
    have havail : (feat.rap_biomass_kg_per_ha.getD 0) * (feat.area_ha.getD 0) = 0 := by
      rcases hnull with h | h <;> simp [h]
    refine ⟨calcOf herd feat d, provOf hid d feat,
      compute_grazing_recommendation_eq st bid hid d herd feat hh hf, havail, ?_⟩
    show compute_days_remaining ((feat.rap_biomass_kg_per_ha.getD 0) * (feat.area_ha.getD 0)) _ = 0
    rw [havail, compute_days_remaining]
    split
    · rfl
    · exact zero_div _
  · intro st bid hid d herd hh hf
    simp only [compute_grazing_recommendation, hh, compute_available_forage_kg, hf]

/-- Claim C9 witness: NULL biomass on the stored feature row still computes,
with zero forage and zero days; a missing row errors. -/
theorem claim_C9_null_coercion_witness :
    (∃ g prov,
      compute_grazing_recommendation
        ⟨[⟨"b1", some "geo"⟩], [exHerd],
         [⟨"b1", ⟨2024, 1, 1⟩, none, none, none, none, none, none, none, some "openmeteo:v1",
           none, none, none, some 10, "t0"⟩], [], 1⟩ "b1" "h1" ⟨2024, 1, 1⟩ = .ok (g, prov)
      ∧ g.available_forage_kg = 0 ∧ g.days_remaining = 0)
    ∧ compute_grazing_recommendation ⟨[⟨"b1", some "geo"⟩], [exHerd], [], [], 1⟩
        "b1" "h1" ⟨2024, 1, 1⟩ = .error .missingFeature := by
  constructor
  · exact claim_C9_null_coercion.1 _ "b1" "h1" ⟨2024, 1, 1⟩ exHerd _ (by rfl) (by rfl)
      (Or.inl rfl)
  · exact claim_C9_null_coercion.2 _ "b1" "h1" ⟨2024, 1, 1⟩ exHerd (by rfl) (by rfl)

end GRC

namespace GRC

/-- `pctMetric 0 n = 0` for a nonempty window. -/
theorem pctMetric_zero {n : ℕ} (hn : n ≠ 0) : pctMetric 0 n = 0 := by
  simp [pctMetric, Nat.pos_of_ne_zero hn, Nat.le_zero, hn]

/-- Claim C6: `rap_p95_staleness_days` is the nearest-rank 95th percentile —
index `round((n-1)*0.95)` (clamped) into the ascending-sorted staleness
sample of `calculation_date − as_of_composite_date`; rows whose provenance
yields no composite date are excluded from the sample (not counted as zero);
and a size-1 sample has its single value as p95. -/
theorem claim_C6_staleness_percentile :
    (∀ v : ℤ, pctl [v] (95/100) = some v)
    ∧ (∀ (r : MonRow) (rows : List MonRow), r.rap_composite_date = none →
        staleSample (r :: rows) = staleSample rows)
    ∧ (∀ (cfg : PipelineConfig) (rows : List MonRow) (bid : String) (start stop : ℤ),
        (run_output_monitoring cfg rows bid start stop).rap_p95_staleness_days
          = pctl (staleSample (windowRows rows bid start stop)) (95/100))
    ∧ (∀ (xs : List ℤ) (p : ℚ), xs ≠ [] →
        pctl xs p = some ((List.insertionSort (fun a b : ℤ => a ≤ b) xs).getD
          (max 0 (min (pyRound (((xs.length : ℚ) - 1) * p)) ((xs.length : ℤ) - 1))).toNat 0)) := by
  refine ⟨?_, ?_, ?_, ?_⟩
  · intro v
    simp [pctl, pyRound]
  · intro r rows h
    simp [staleSample, h]
  · intro cfg rows bid start stop
    rfl
  · intro xs p h
    rw [pctl, if_neg (by simpa using h)]

/-- Claim C6 witness: the percentile on concrete samples. -/
theorem claim_C6_staleness_percentile_witness :
    pctl [(7:ℤ)] (95/100) = some 7
    ∧ staleSample [⟨"b1", 5, 1, none⟩, ⟨"b1", 5, 1, some 2⟩] = [3]
    ∧ pctl [(3:ℤ), 1] (95/100)
        = some ((List.insertionSort (fun a b : ℤ => a ≤ b) [(3:ℤ), 1]).getD
            (max 0 (min (pyRound (((([(3:ℤ), 1].length) : ℚ) - 1) * (95/100)))
              (([(3:ℤ), 1].length : ℤ) - 1))).toNat 0) := by
  refine ⟨claim_C6_staleness_percentile.1 7, ?_, ?_⟩
  · have h := claim_C6_staleness_percentile.2.1 ⟨"b1", 5, 1, none⟩ [⟨"b1", 5, 1, some 2⟩] rfl
    rw [h]
    rfl
  · exact claim_C6_staleness_percentile.2.2.2 [3, 1] (95/100) (by decide)

/-- Claim C5 counterexample: a window with a single recommendation whose
`days_of_grazing_remaining` is exactly 0 lies within the default guardrails
`[min_days_remaining, max_days_remaining] = [0, 365]` and has perfectly fresh
RAP provenance (staleness 0), yet the monitor's status is `crit` (the
`pct_zero_or_negative` fraction is 1 > 0.10) — refuting "never crit". -/
theorem claim_C5_counterexample :
    (({} : PipelineConfig).min_days_remaining ≤ (0 : ℚ)
      ∧ (0 : ℚ) ≤ ({} : PipelineConfig).max_days_remaining)
    ∧ (run_output_monitoring {} [⟨"b1", 0, 0, some 0⟩] "b1" 0 0).rap_p95_staleness_days = some 0
    ∧ (run_output_monitoring {} [⟨"b1", 0, 0, some 0⟩] "b1" 0 0).status = "crit" := by
  refine ⟨by norm_num [PipelineConfig], ?_, ?_⟩ <;> decide

end GRC

namespace GRC

/-- Claim C5 (amended): zero recommendations in the window yield exactly the
single crit alert `no_recommendations_in_window` (no further metric alerts)
and overall status `crit`; and, under the default configuration, a nonempty
window whose recommendations all have *strictly positive* days-remaining
within the max guardrail, every row carrying a parseable RAP composite date,
with p95 staleness at most the crit threshold, gets status `warn` or `ok`
decided solely by the staleness warn threshold — never `crit`.  (The original
claim, with the boundary value `days_remaining = 0` allowed by the guardrail
interval, is refuted by the counterexample.) -/
theorem claim_C5_monitor_status :
    (∀ (cfg : PipelineConfig) (rows : List MonRow) (bid : String) (start stop : ℤ),
      windowRows rows bid start stop = [] →
      (run_output_monitoring cfg rows bid start stop).alerts
          = [⟨"no_recommendations_in_window", "crit", false⟩]
        ∧ (run_output_monitoring cfg rows bid start stop).status = "crit")
    ∧ (∀ (rows : List MonRow) (bid : String) (start stop : ℤ) (p95 : ℤ),
      windowRows rows bid start stop ≠ [] →
      (∀ r ∈ windowRows rows bid start stop,
        0 < r.days_of_grazing_remaining
          ∧ r.days_of_grazing_remaining ≤ ({} : PipelineConfig).max_days_remaining) →
      pctl (staleSample (windowRows rows bid start stop)) (95/100) = some p95 →
      p95 ≤ ({} : PipelineConfig).monitor_rap_p95_stale_crit_days →
      (run_output_monitoring {} rows bid start stop).status
        = (if ({} : PipelineConfig).monitor_rap_p95_stale_warn_days < p95
           then "warn" else "ok")) := by
  constructor
  · intro cfg rows bid start stop hw
    constructor <;> simp [run_output_monitoring, hw]
  · intro rows bid start stop p95 hne hall hp95 hle
    have hn : (windowRows rows bid start stop).length ≠ 0 := by
      simpa [List.length_eq_zero] using hne
    have hzero : (windowRows rows bid start stop).countP
        (fun r => decide (r.days_of_grazing_remaining ≤ 0)) = 0 := by
      refine List.countP_eq_zero.mpr ?_
      intro r hr
      simpa using not_le.mpr (hall r hr).1
    have hover : (windowRows rows bid start stop).countP
        (fun r => decide (({} : PipelineConfig).max_days_remaining
          < r.days_of_grazing_remaining)) = 0 := by
      refine List.countP_eq_zero.mpr ?_
      intro r hr
      simpa using not_lt.mpr (hall r hr).2
    have hnotcrit : ¬ ({} : PipelineConfig).monitor_rap_p95_stale_crit_days < p95 :=
      not_lt.mpr hle
    simp only [run_output_monitoring, hzero, hover, hp95, if_neg hn,
      pctMetric_zero hn]
    by_cases h150 : ({} : PipelineConfig).monitor_rap_p95_stale_warn_days < p95
    · simp [h150, hnotcrit, pctMetric_zero hn]
      norm_num [PipelineConfig]
    · simp [h150, hnotcrit, pctMetric_zero hn]
      norm_num [PipelineConfig]

/-- Claim C5 witness: both branches of the amended theorem at concrete
windows — an empty window is crit; a healthy fresh window is ok. -/
theorem claim_C5_monitor_status_witness :
    ((run_output_monitoring {} [] "b1" 0 0).alerts
        = [⟨"no_recommendations_in_window", "crit", false⟩]
      ∧ (run_output_monitoring {} [] "b1" 0 0).status = "crit")
    ∧ (run_output_monitoring {} [⟨"b1", 0, 10, some 0⟩] "b1" 0 0).status = "ok" := by
  constructor
  · exact claim_C5_monitor_status.1 {} [] "b1" 0 0 (by decide)
  · have h := claim_C5_monitor_status.2 [⟨"b1", 0, 10, some 0⟩] "b1" 0 0 0
      (by decide) (by decide) (by decide) (by decide)
    simpa using h

end GRC

namespace GRC

theorem applyHerdUpdate_id (r : HerdRow) (h : HerdIn) (ac : ℤ) (di : ℚ) :
    (applyHerdUpdate r h ac di).id = r.id := rfl

/-- Looking up an id after one upsert statement: the stored row is updated
when the incoming id matches, untouched otherwise. -/
theorem find_upsertHerdOne (rows : List HerdRow) (h : HerdIn) (ac : ℤ) (di : ℚ)
    (hid : String) (old : HerdRow)
    (hfind : rows.find? (fun r => decide (r.id = hid)) = some old) :
    (upsertHerdOne rows h ac di).find? (fun r => decide (r.id = hid))
      = some (if h.id = hid then applyHerdUpdate old h ac di else old) := by
  have hold : old.id = hid := by simpa using List.find?_some hfind
  rw [upsertHerdOne]
  by_cases hex : (rows.find? (fun r => decide (r.id = h.id))).isSome
  · rw [if_pos hex]
    have hpf : (fun r : HerdRow => decide (r.id = hid))
        ∘ (fun r => if r.id = h.id then applyHerdUpdate r h ac di else r)
        = fun r : HerdRow => decide (r.id = hid) := by
      funext r
      by_cases hr : r.id = h.id <;> simp [hr, applyHerdUpdate_id]
    rw [List.find?_map, hpf, hfind]
    show some (if old.id = h.id then applyHerdUpdate old h ac di else old)
      = some (if h.id = hid then applyHerdUpdate old h ac di else old)
    by_cases hh : h.id = hid
    · rw [if_pos (hold.trans hh.symm), if_pos hh]
    · rw [if_neg (fun he => hh (he.symm.trans hold)), if_neg hh]
  · rw [if_neg hex]
    by_cases hh : h.id = hid
    · exfalso
      apply hex
      rw [hh, hfind]
      rfl
    · rw [List.find?_append, hfind]
      simp [hh]

/-- Claim C8: herd-configuration upserts never downgrade a populated
`boundary_id` to NULL — when the stored row has `boundary_id = some b` and
every incoming row for that id carries a NULL `boundary_id`, the stored value
survives the whole batch (`COALESCE(excluded.boundary_id, existing)`), whether
the incoming rows update the row or are skipped by the validity gate. -/
theorem claim_C8_upsert_keeps_boundary :
    ∀ (herds : List HerdIn) (rows : List HerdRow) (hid : String) (old : HerdRow) (b : String),
      rows.find? (fun r => decide (r.id = hid)) = some old →
      old.boundary_id = some b →
      (∀ h ∈ herds, h.id = hid → h.boundary_id = none) →
      ∃ r, (upsert_herd_configs rows herds).1.find? (fun r => decide (r.id = hid)) = some r
        ∧ r.boundary_id = some b := by
  intro herds
  induction herds with
  | nil =>
    intro rows hid old b hfind hb _
    exact ⟨old, hfind, hb⟩
  | cons h rest ih =>
    intro rows hid old b hfind hb hall
    rw [upsert_herd_configs]
    by_cases hgate : h.animal_count.getD 0 ≤ 0 ∨ h.daily_intake_kg_per_head.getD 0 ≤ 0
    · rw [if_pos hgate]
      exact ih rows hid old b hfind hb (fun h' hm => hall h' (List.mem_cons_of_mem _ hm))
    · rw [if_neg hgate]
      have hfind' := find_upsertHerdOne rows h (h.animal_count.getD 0)
        (h.daily_intake_kg_per_head.getD 0) hid old hfind
      refine ih _ hid _ b hfind' ?_ (fun h' hm => hall h' (List.mem_cons_of_mem _ hm))
      by_cases hh : h.id = hid
      · rw [if_pos hh]
        have hnone : h.boundary_id = none := hall h (List.mem_cons_self _ _) hh
        simp [applyHerdUpdate, hnone, hb]
      · rw [if_neg hh]
        exact hb

/-- Claim C8 witness: a stored row with `boundary_id = some "b1"` upserted
with a valid incoming config whose `boundary_id` is NULL keeps `"b1"`. -/
theorem claim_C8_upsert_keeps_boundary_witness :
    ∃ r, (upsert_herd_configs [exHerd]
        [⟨"h1", "r2", none, none, some 20, none, some 6, none, some "snap2", none, none,
          none⟩]).1.find? (fun r => decide (r.id = "h1")) = some r
      ∧ r.boundary_id = some "b1" :=
  claim_C8_upsert_keeps_boundary
    [⟨"h1", "r2", none, none, some 20, none, some 6, none, some "snap2", none, none, none⟩]
    [exHerd] "h1" exHerd "b1" (by rfl) (by rfl)
    (by intro h hm _; simp at hm; rw [hm])

end GRC

namespace GRC

def featKeys (l : List MatFeatRow) : List (String × ℤ) :=
  l.map (fun r => (r.boundary_id, r.feature_date))

theorem insertFeatures_ok (new : List MatFeatRow) :
    ∀ acc : List MatFeatRow,
      (∀ r ∈ new, ∀ x ∈ acc,
        ¬(x.boundary_id = r.boundary_id ∧ x.feature_date = r.feature_date)) →
      (featKeys new).Nodup →
      insertFeatures acc new = .ok (acc ++ new) := by
  induction new with
  | nil =>
    intro acc _ _
    simp [insertFeatures]
  | cons r rest ih =>
    intro acc hdisj hnodup
    rw [insertFeatures]
    have hany : (acc.any (fun x =>
        decide (x.boundary_id = r.boundary_id ∧ x.feature_date = r.feature_date))) = false := by
      rw [List.any_eq_false]
      intro x hx
      simpa using hdisj r (List.mem_cons_self _ _) x hx
    have hcond : ¬ ((acc.any (fun x =>
        decide (x.boundary_id = r.boundary_id ∧ x.feature_date = r.feature_date))) = true) := by
      rw [hany]
      exact Bool.false_ne_true
    rw [if_neg hcond]
    have hcons : ((r.boundary_id, r.feature_date) :: featKeys rest).Nodup := hnodup
    have hkey : (r.boundary_id, r.feature_date) ∉ featKeys rest := (List.nodup_cons.mp hcons).1
    have hdisj' : ∀ r' ∈ rest, ∀ x ∈ acc ++ [r],
        ¬(x.boundary_id = r'.boundary_id ∧ x.feature_date = r'.feature_date) := by
      intro r' hr' x hx
      rcases List.mem_append.mp hx with hxa | hxr
      · exact hdisj r' (List.mem_cons_of_mem _ hr') x hxa
      · have hx_eq : x = r := by simpa using hxr
        rintro ⟨h1, h2⟩
        apply hkey
        rw [hx_eq] at h1 h2
        have hpair : (r.boundary_id, r.feature_date) = (r'.boundary_id, r'.feature_date) := by
          rw [h1, h2]
        rw [hpair]
        exact List.mem_map.mpr ⟨r', hr', rfl⟩
    rw [ih (acc ++ [r]) hdisj' (List.nodup_cons.mp hcons).2]
    simp

theorem dateRangeZ_length (start stop : ℤ) :
    (dateRangeZ start stop).length = (stop - start).toNat + 1 := by
  rw [dateRangeZ, List.length_map, List.length_range]

theorem mem_dateRangeZ {start stop d : ℤ} (hle : start ≤ stop) :
    d ∈ dateRangeZ start stop ↔ start ≤ d ∧ d ≤ stop := by
  simp only [dateRangeZ, List.mem_map, List.mem_range]
  constructor
  · rintro ⟨k, hk, rfl⟩
    omega
  · rintro ⟨h1, h2⟩
    refine ⟨(d - start).toNat, by omega, by omega⟩

theorem dateRangeZ_nodup (start stop : ℤ) : (dateRangeZ start stop).Nodup := by
  refine List.Nodup.map ?_ (List.nodup_range _)
  intro a b hab
  have h : start + (a:ℤ) = start + (b:ℤ) := hab
  omega

theorem countP_eq_one_of_nodup_mem {l : List ℤ} {d : ℤ} (hn : l.Nodup) (hm : d ∈ l) :
    l.countP (fun x => decide (x = d)) = 1 := by
  induction l with
  | nil => simp at hm
  | cons a tl ih =>
    rw [List.countP_cons]
    rcases List.mem_cons.mp hm with rfl | hm'
    · have hz : tl.countP (fun x => decide (x = d)) = 0 := by
        refine List.countP_eq_zero.mpr ?_
        intro x hx
        simp only [decide_eq_true_eq]
        rintro rfl
        exact (List.nodup_cons.mp hn).1 hx
      simp [hz]
    · have hne : a ≠ d := by
        rintro rfl
        exact (List.nodup_cons.mp hn).1 hm'
      rw [ih (List.nodup_cons.mp hn).2 hm']
      simp [hne]

end GRC

namespace GRC

def soilRowsOf (st : FeatDB) (bid : String) : List SoilRow :=
  st.nrcs_soil_data.filter (fun r => decide (r.boundary_id = bid))

def keptRows (st : FeatDB) (bid : String) (start stop : ℤ) : List MatFeatRow :=
  st.features.filter (fun r =>
    !(decide (r.boundary_id = bid ∧ start ≤ r.feature_date ∧ r.feature_date ≤ stop)))

def newFeatRows (st : FeatDB) (bid : String) (start stop : ℤ) (wsv ca : String) (area : ℚ) :
    List MatFeatRow :=
  (dateRangeZ start stop).map (matRowFor st bid wsv area
    (sqlAvg ((soilRowsOf st bid).filterMap (fun r => r.productivity_index)))
    (sqlAvg ((soilRowsOf st bid).filterMap (fun r => r.available_water_capacity)))
    ((latestSoil (soilRowsOf st bid)).bind (fun r => r.source_version)) ca)

theorem matRowFor_boundary (st : FeatDB) (bid wsv : String) (area : ℚ) (pi awc : Option ℚ)
    (ssv : Option String) (ca : String) (d : ℤ) :
    (matRowFor st bid wsv area pi awc ssv ca d).boundary_id = bid := rfl

theorem matRowFor_date (st : FeatDB) (bid wsv : String) (area : ℚ) (pi awc : Option ℚ)
    (ssv : Option String) (ca : String) (d : ℤ) :
    (matRowFor st bid wsv area pi awc ssv ca d).feature_date = d := rfl

theorem newFeatRows_mem {st : FeatDB} {bid : String} {start stop : ℤ} {wsv ca : String}
    {area : ℚ} (hle : start ≤ stop) :
    ∀ row ∈ newFeatRows st bid start stop wsv ca area,
      row.boundary_id = bid ∧ start ≤ row.feature_date ∧ row.feature_date ≤ stop := by
  intro row hrow
  obtain ⟨d, hd, rfl⟩ := List.mem_map.mp hrow
  obtain ⟨h1, h2⟩ := (mem_dateRangeZ hle).mp hd
  exact ⟨rfl, h1, h2⟩

theorem keptRows_not {st : FeatDB} {bid : String} {start stop : ℤ} :
    ∀ x ∈ keptRows st bid start stop,
      ¬(x.boundary_id = bid ∧ start ≤ x.feature_date ∧ x.feature_date ≤ stop) := by
  intro x hx hcontra
  have h := (List.mem_filter.mp hx).2
  rw [Bool.not_eq_true', decide_eq_false_iff_not] at h
  exact h hcontra

theorem featKeys_newFeatRows (st : FeatDB) (bid : String) (start stop : ℤ) (wsv ca : String)
    (area : ℚ) :
    featKeys (newFeatRows st bid start stop wsv ca area)
      = (dateRangeZ start stop).map (fun d => (bid, d)) := by
  rw [featKeys, newFeatRows, List.map_map]
  rfl

theorem newFeatRows_keys_nodup (st : FeatDB) (bid : String) (start stop : ℤ) (wsv ca : String)
    (area : ℚ) : (featKeys (newFeatRows st bid start stop wsv ca area)).Nodup := by
  rw [featKeys_newFeatRows]
  refine List.Nodup.map ?_ (dateRangeZ_nodup start stop)
  intro a b hab
  exact congrArg Prod.snd hab

theorem kept_new_disjoint {st st' : FeatDB} {bid : String} {start stop : ℤ} {wsv ca : String}
    {area : ℚ} (hle : start ≤ stop) :
    ∀ r ∈ newFeatRows st' bid start stop wsv ca area, ∀ x ∈ keptRows st bid start stop,
      ¬(x.boundary_id = r.boundary_id ∧ x.feature_date = r.feature_date) := by
  intro r hr x hx
  obtain ⟨hrb, hr1, hr2⟩ := newFeatRows_mem hle r hr
  rintro ⟨h1, h2⟩
  exact keptRows_not x hx ⟨h1.trans hrb, by rw [h2]; exact ⟨hr1, hr2⟩⟩

theorem materialize_ok (st : FeatDB) (bid : String) (start stop : ℤ) (wsv ca : String)
    (b : MatBoundaryRow)
    (hb : st.boundaries.find? (fun x => decide (x.boundary_id = bid)) = some b)
    (hle : start ≤ stop) :
    materialize_boundary_daily_features st bid start stop wsv ca
      = .ok ({st with features := keptRows st bid start stop
                ++ newFeatRows st bid start stop wsv ca (b.area_ha.getD 0)},
             ⟨(stop - start).toNat + 1,
              (newFeatRows st bid start stop wsv ca (b.area_ha.getD 0)).countP
                (fun r => r.weather_precipitation_mm.isNone && r.weather_temp_max_c.isNone
                  && r.weather_temp_min_c.isNone && r.weather_wind_speed_kmh.isNone),
              (newFeatRows st bid start stop wsv ca (b.area_ha.getD 0)).countP
                (fun r => r.rap_biomass_kg_per_ha.isNone)⟩) := by
  have hins := insertFeatures_ok (newFeatRows st bid start stop wsv ca (b.area_ha.getD 0))
    (keptRows st bid start stop) (kept_new_disjoint hle)
    (newFeatRows_keys_nodup st bid start stop wsv ca (b.area_ha.getD 0))
  have hlen : (newFeatRows st bid start stop wsv ca (b.area_ha.getD 0)).length
      = (stop - start).toNat + 1 := by
    rw [newFeatRows, List.length_map, dateRangeZ_length]
  simp only [materialize_boundary_daily_features, hb]
  rw [show (st.features.filter (fun r =>
      !(decide (r.boundary_id = bid ∧ start ≤ r.feature_date ∧ r.feature_date ≤ stop))))
    = keptRows st bid start stop from rfl]
  rw [show ((dateRangeZ start stop).map (matRowFor st bid wsv (b.area_ha.getD 0)
      (sqlAvg (((st.nrcs_soil_data.filter (fun r => decide (r.boundary_id = bid)))).filterMap
        (fun r => r.productivity_index)))
      (sqlAvg (((st.nrcs_soil_data.filter (fun r => decide (r.boundary_id = bid)))).filterMap
        (fun r => r.available_water_capacity)))
      ((latestSoil ((st.nrcs_soil_data.filter (fun r => decide (r.boundary_id = bid))))).bind
        (fun r => r.source_version)) ca))
    = newFeatRows st bid start stop wsv ca (b.area_ha.getD 0) from rfl]
  rw [hins, hlen]

end GRC

namespace GRC

theorem count_per_day {st st' : FeatDB} {bid : String} {start stop : ℤ} {wsv ca : String}
    {area : ℚ} (hle : start ≤ stop) (d : ℤ) (hd1 : start ≤ d) (hd2 : d ≤ stop) :
    ((keptRows st bid start stop ++ newFeatRows st' bid start stop wsv ca area).countP
      (fun r => decide (r.boundary_id = bid ∧ r.feature_date = d))) = 1 := by
  rw [List.countP_append]
  have hk : (keptRows st bid start stop).countP
      (fun r => decide (r.boundary_id = bid ∧ r.feature_date = d)) = 0 := by
    refine List.countP_eq_zero.mpr ?_
    intro x hx
    simp only [decide_eq_true_eq]
    rintro ⟨h1, h2⟩
    exact keptRows_not x hx ⟨h1, by rw [h2]; exact ⟨hd1, hd2⟩⟩
  have hn : (newFeatRows st' bid start stop wsv ca area).countP
      (fun r => decide (r.boundary_id = bid ∧ r.feature_date = d)) = 1 := by
    rw [newFeatRows, List.countP_map]
    have hcong : ∀ x ∈ dateRangeZ start stop,
        ((fun r : MatFeatRow => decide (r.boundary_id = bid ∧ r.feature_date = d))
          ∘ (matRowFor st' bid wsv area
              (sqlAvg ((soilRowsOf st' bid).filterMap (fun r => r.productivity_index)))
              (sqlAvg ((soilRowsOf st' bid).filterMap (fun r => r.available_water_capacity)))
              ((latestSoil (soilRowsOf st' bid)).bind (fun r => r.source_version)) ca)) x = true
        ↔ (fun x : ℤ => decide (x = d)) x = true := by
      intro x _
      simp [Function.comp, matRowFor_boundary, matRowFor_date]
    rw [List.countP_congr hcong]
    exact countP_eq_one_of_nodup_mem (dateRangeZ_nodup start stop)
      ((mem_dateRangeZ hle).mpr ⟨hd1, hd2⟩)
  rw [hk, hn]

theorem keys_nodup_after {st st' : FeatDB} {bid : String} {start stop : ℤ} {wsv ca : String}
    {area : ℚ} (hle : start ≤ stop) (hnodup : (featKeys st.features).Nodup) :
    (featKeys (keptRows st bid start stop
      ++ newFeatRows st' bid start stop wsv ca area)).Nodup := by
  rw [featKeys, List.map_append]
  rw [List.nodup_append]
  refine ⟨?_, ?_, ?_⟩
  · exact hnodup.sublist (List.Sublist.map _ (List.filter_sublist _))
  · exact newFeatRows_keys_nodup st' bid start stop wsv ca area
  · intro a ha hb
    obtain ⟨x, hx, rfl⟩ := List.mem_map.mp ha
    have hbn : (x.boundary_id, x.feature_date) ∈ featKeys (newFeatRows st' bid start stop wsv ca area) := hb
    rw [featKeys_newFeatRows] at hbn
    obtain ⟨dd, hdd, heq⟩ := List.mem_map.mp hbn
    have h1 : x.boundary_id = bid := (Prod.mk.injEq _ _ _ _ ▸ heq).1.symm
    have h2 : x.feature_date = dd := congrArg Prod.snd heq.symm
    obtain ⟨hq1, hq2⟩ := (mem_dateRangeZ hle).mp hdd
    exact keptRows_not x hx ⟨h1, by rw [h2]; exact ⟨hq1, hq2⟩⟩

end GRC

namespace GRC

/-- Claim C4: materialization of a known boundary over an inclusive range
first deletes that boundary's feature rows in the range and then inserts
exactly one rebuilt row per calendar day (the result state is the filtered
remainder plus one row per day, each in-range day appearing exactly once);
re-materializing the same boundary/window yields the same inserted count and
leaves the `(boundary_id, feature_date)` keys duplicate-free. -/
theorem claim_C4_partition_replace :
    ∀ (st : FeatDB) (bid : String) (start stop : ℤ) (wsv ca₁ ca₂ : String) (b : MatBoundaryRow),
      st.boundaries.find? (fun x => decide (x.boundary_id = bid)) = some b →
      start ≤ stop →
      ∃ st₁ res₁ st₂ res₂,
        materialize_boundary_daily_features st bid start stop wsv ca₁ = .ok (st₁, res₁)
        ∧ st₁.features = keptRows st bid start stop
            ++ newFeatRows st bid start stop wsv ca₁ (b.area_ha.getD 0)
        ∧ res₁.inserted = (stop - start).toNat + 1
        ∧ (∀ d : ℤ, start ≤ d → d ≤ stop →
            st₁.features.countP
              (fun r => decide (r.boundary_id = bid ∧ r.feature_date = d)) = 1)
        ∧ materialize_boundary_daily_features st₁ bid start stop wsv ca₂ = .ok (st₂, res₂)
        ∧ res₂.inserted = res₁.inserted
        ∧ ((featKeys st.features).Nodup →
            (featKeys st₁.features).Nodup ∧ (featKeys st₂.features).Nodup) := by
  intro st bid start stop wsv ca₁ ca₂ b hb hle
  have h1 := materialize_ok st bid start stop wsv ca₁ b hb hle
  have h2 := materialize_ok
    ({st with features := keptRows st bid start stop
        ++ newFeatRows st bid start stop wsv ca₁ (b.area_ha.getD 0)})
    bid start stop wsv ca₂ b hb hle
  refine ⟨_, _, _, _, h1, rfl, rfl,
    (fun d hd1 hd2 => count_per_day hle d hd1 hd2), h2, rfl, ?_⟩
  intro hn
  have hk1 : (featKeys (keptRows st bid start stop
      ++ newFeatRows st bid start stop wsv ca₁ (b.area_ha.getD 0))).Nodup :=
    keys_nodup_after hle hn
  exact ⟨hk1, keys_nodup_after hle hk1⟩

end GRC

namespace GRC

/-- Claim C4 witness: materializing days 0..2 twice over an empty-table
database inserts 3 rows each time and leaves no duplicate keys. -/
theorem claim_C4_partition_replace_witness :
    ∃ st₁ res₁ st₂ res₂,
      materialize_boundary_daily_features ⟨[⟨"b1", some 10⟩], [], [], [], []⟩
          "b1" 0 2 "openmeteo:v1" "t1" = .ok (st₁, res₁)
      ∧ res₁.inserted = 3
      ∧ materialize_boundary_daily_features st₁ "b1" 0 2 "openmeteo:v1" "t2" = .ok (st₂, res₂)
      ∧ res₂.inserted = 3
      ∧ (featKeys st₂.features).Nodup := by
  obtain ⟨st₁, res₁, st₂, res₂, h1, hfeat, hins, hcount, h2, hins2, hnod⟩ :=
    claim_C4_partition_replace ⟨[⟨"b1", some 10⟩], [], [], [], []⟩ "b1" 0 2 "openmeteo:v1"
      "t1" "t2" ⟨"b1", some 10⟩ (by rfl) (by decide)
  refine ⟨st₁, res₁, st₂, res₂, h1, ?_, h2, ?_, ?_⟩
  · rw [hins]
    rfl
  · rw [hins2, hins]
    rfl
  · exact (hnod (by simp [featKeys])).2

end GRC

namespace GRC

theorem clistLt_asymm : ∀ (a b : List Char), clistLt a b = true → clistLt b a = false := by
  intro a
  induction a with
  | nil =>
    intro b h
    cases b with
    | nil => simp [clistLt] at h
    | cons y ys => simp [clistLt]
  | cons x xs ih =>
    intro b h
    cases b with
    | nil => simp [clistLt] at h
    | cons y ys =>
      simp only [clistLt] at h ⊢
      by_cases hxy : x < y
      · rw [if_neg (lt_asymm hxy), if_pos hxy]
      · rw [if_neg hxy] at h
        by_cases hyx : y < x
        · rw [if_pos hyx] at h
          exact absurd h (by simp)
        · rw [if_neg hyx] at h
          rw [if_neg hyx, if_neg hxy]
          exact ih ys h

theorem clistLt_trans : ∀ (a b c : List Char),
    clistLt a b = true → clistLt b c = true → clistLt a c = true := by
  intro a
  induction a with
  | nil =>
    intro b c hab hbc
    cases c with
    | nil =>
      cases b with
      | nil => simp [clistLt] at hbc
      | cons y ys => simp [clistLt] at hbc
    | cons z zs => simp [clistLt]
  | cons x xs ih =>
    intro b c hab hbc
    cases b with
    | nil => simp [clistLt] at hab
    | cons y ys =>
      cases c with
      | nil => simp [clistLt] at hbc
      | cons z zs =>
        simp only [clistLt] at hab hbc ⊢
        by_cases hxy : x < y
        · by_cases hyz : y < z
          · rw [if_pos (lt_trans hxy hyz)]
          · rw [if_neg hyz] at hbc
            by_cases hzy : z < y
            · rw [if_pos hzy] at hbc
              exact absurd hbc (by simp)
            · have hyz' : y = z := le_antisymm (not_lt.mp hzy) (not_lt.mp hyz)
              rw [if_pos (hyz' ▸ hxy)]
        · rw [if_neg hxy] at hab
          by_cases hyx : y < x
          · rw [if_pos hyx] at hab
            exact absurd hab (by simp)
          · rw [if_neg hyx] at hab
            have hxy' : x = y := le_antisymm (not_lt.mp hyx) (not_lt.mp hxy)
            subst hxy'
            by_cases hxz : x < z
            · rw [if_pos hxz]
            · rw [if_neg hxz] at hbc ⊢
              by_cases hzx : z < x
              · rw [if_pos hzx] at hbc
                exact absurd hbc (by simp)
              · rw [if_neg hzx] at hbc ⊢
                exact ih ys zs hab hbc

theorem clistLt_eq_of_not : ∀ (a b : List Char),
    clistLt a b = false → clistLt b a = false → a = b := by
  intro a
  induction a with
  | nil =>
    intro b h1 _
    cases b with
    | nil => rfl
    | cons y ys => simp [clistLt] at h1
  | cons x xs ih =>
    intro b h1 h2
    cases b with
    | nil => simp [clistLt] at h2
    | cons y ys =>
      simp only [clistLt] at h1 h2
      by_cases hxy : x < y
      · rw [if_pos hxy] at h1
        exact absurd h1 (by simp)
      · rw [if_neg hxy] at h1
        by_cases hyx : y < x
        · rw [if_pos hyx] at h2
          exact absurd h2 (by simp)
        · rw [if_neg hyx] at h1
          rw [if_neg hyx, if_neg hxy] at h2
          have hx : x = y := le_antisymm (not_lt.mp hyx) (not_lt.mp hxy)
          rw [hx, ih ys h1 h2]

theorem strLtB_asymm {a b : String} (h : strLtB a b = true) : strLtB b a = false :=
  clistLt_asymm _ _ h

theorem strLtB_trans {a b c : String} (h1 : strLtB a b = true) (h2 : strLtB b c = true) :
    strLtB a c = true :=
  clistLt_trans _ _ _ h1 h2

theorem strLtB_eq {a b : String} (h1 : strLtB a b = false) (h2 : strLtB b a = false) :
    a = b := by
  have h := clistLt_eq_of_not a.data b.data h1 h2
  cases a
  cases b
  exact congrArg String.mk h

theorem entryLE_total (a b : String × String) : entryLE a b = true ∨ entryLE b a = true := by
  by_cases h : strLtB b.1 a.1 = true
  · right
    rw [entryLE, strLtB_asymm h]
    rfl
  · left
    rw [entryLE, Bool.eq_false_iff.mpr h]
    rfl

theorem entryLE_trans {a b c : String × String}
    (h1 : entryLE a b = true) (h2 : entryLE b c = true) : entryLE a c = true := by
  rw [entryLE, Bool.not_eq_true'] at h1 h2
  rw [entryLE, Bool.not_eq_true']
  by_cases hca : strLtB c.1 a.1 = true
  · exfalso
    by_cases hbc : strLtB b.1 c.1 = true
    · exact absurd (strLtB_trans hbc hca) (by rw [h1]; simp)
    · have hbc' : strLtB b.1 c.1 = false := by simpa using hbc
      have heq : b.1 = c.1 := strLtB_eq hbc' h2
      rw [← heq] at hca
      rw [h1] at hca
      exact absurd hca (by simp)
  · simpa using hca

end GRC

namespace GRC

theorem insertEntry_perm (e : String × String) (l : List (String × String)) :
    (insertEntry e l).Perm (e :: l) := by
  induction l with
  | nil => exact List.Perm.refl _
  | cons f tl ih =>
    rw [insertEntry]
    by_cases h : entryLE e f = true
    · rw [if_pos h]
    · rw [if_neg h]
      exact (List.Perm.cons f ih).trans (List.Perm.swap e f tl)

theorem sortEntries_perm (l : List (String × String)) : (sortEntries l).Perm l := by
  induction l with
  | nil => exact List.Perm.refl _
  | cons e tl ih =>
    rw [sortEntries]
    exact (insertEntry_perm e (sortEntries tl)).trans (List.Perm.cons e ih)

theorem sorted_insertEntry (e : String × String) {l : List (String × String)}
    (hs : l.Pairwise (fun a b => entryLE a b = true)) :
    (insertEntry e l).Pairwise (fun a b => entryLE a b = true) := by
  induction l with
  | nil => simp [insertEntry]
  | cons f tl ih =>
    rw [insertEntry]
    obtain ⟨hf, htl⟩ := List.pairwise_cons.mp hs
    by_cases h : entryLE e f = true
    · rw [if_pos h]
      refine List.Pairwise.cons ?_ hs
      intro x hx
      rcases List.mem_cons.mp hx with rfl | hx'
      · exact h
      · exact entryLE_trans h (hf x hx')
    · rw [if_neg h]
      have hfe : entryLE f e = true := (entryLE_total e f).resolve_left h
      refine List.Pairwise.cons ?_ (ih htl)
      intro x hx
      have hx' := (insertEntry_perm e tl).mem_iff.mp hx
      rcases List.mem_cons.mp hx' with rfl | hx''
      · exact hfe
      · exact hf x hx''

theorem sorted_sortEntries (l : List (String × String)) :
    (sortEntries l).Pairwise (fun a b => entryLE a b = true) := by
  induction l with
  | nil => simp [sortEntries]
  | cons e tl ih =>
    rw [sortEntries]
    exact sorted_insertEntry e ih

theorem pairwise_strict_of_sorted_nodup {m : List (String × String)}
    (hsort : m.Pairwise (fun a b => entryLE a b = true))
    (hnod : (m.map Prod.fst).Nodup) :
    m.Pairwise (fun a b => strLtB a.1 b.1 = true) := by
  have hne : m.Pairwise (fun a b => a.1 ≠ b.1) := List.pairwise_map.mp hnod
  refine (hsort.and hne).imp ?_
  rintro a b ⟨hle, hne'⟩
  rw [entryLE, Bool.not_eq_true'] at hle
  by_cases h : strLtB a.1 b.1 = true
  · exact h
  · exact absurd (strLtB_eq (by simpa using h) hle) hne'

theorem sortEntries_eq_of_perm {l₁ l₂ : List (String × String)} (hp : l₁.Perm l₂)
    (hnd : (l₁.map Prod.fst).Nodup) : sortEntries l₁ = sortEntries l₂ := by
  have hperm : (sortEntries l₁).Perm (sortEntries l₂) :=
    (sortEntries_perm l₁).trans (hp.trans (sortEntries_perm l₂).symm)
  have hnd₁ : ((sortEntries l₁).map Prod.fst).Nodup :=
    (((sortEntries_perm l₁).map Prod.fst).nodup_iff).mpr hnd
  have hnd₂ : ((sortEntries l₂).map Prod.fst).Nodup :=
    ((hperm.map Prod.fst).nodup_iff).mp hnd₁
  exact @List.eq_of_perm_of_sorted (String × String)
    (fun a b => strLtB a.1 b.1 = true)
    ⟨fun a b h1 h2 => absurd h2 (by rw [strLtB_asymm h1]; simp)⟩
    _ _ hperm
    (pairwise_strict_of_sorted_nodup (sorted_sortEntries l₁) hnd₁)
    (pairwise_strict_of_sorted_nodup (sorted_sortEntries l₂) hnd₂)

theorem serializeObj_ofList (kvs : List (String × JVal)) :
    serializeObj (JObj.ofList kvs) = kvs.map (fun e => (e.1, serialize e.2)) := by
  induction kvs with
  | nil => rfl
  | cons e tl ih =>
    cases e
    simp [JObj.ofList, serializeObj, ih]

end GRC

namespace GRC

/-- Claim C7 (amended): `stable_json_dumps` sorts object keys recursively so
that two objects whose entries are permutations of one another (with equal
serialized values and duplicate-free keys) serialize to identical bytes, and
equal bytes give equal hex digests; the concrete nested example pins the
whitespace-free sorted output byte-for-byte.  Non-finite floats, however, are
SERIALIZED as the tokens `NaN`/`Infinity`/`-Infinity` (CPython's `allow_nan`
default), not rejected — the original claim's rejection clause is refuted by
the counterexample. -/
theorem claim_C7_canonical_encoder :
    (∀ (kvs₁ kvs₂ : List (String × JVal)),
      (kvs₁.map (fun e => (e.1, serialize e.2))).Perm (kvs₂.map (fun e => (e.1, serialize e.2))) →
      (kvs₁.map Prod.fst).Nodup →
      stable_json_dumps (jobjL kvs₁) = stable_json_dumps (jobjL kvs₂))
    ∧ stable_json_dumps (jobjL [("b", .jint 1), ("a", jobjL [("y", .jint 2), ("x", .jnull)])])
        = "\x7b\"a\":\x7b\"x\":null,\"y\":2\x7d,\"b\":1\x7d"
    ∧ (∀ (sha : String → String) (v₁ v₂ : JVal),
        stable_json_dumps v₁ = stable_json_dumps v₂ →
        sha (stable_json_dumps v₁) = sha (stable_json_dumps v₂))
    ∧ stable_json_dumps .jnan = "NaN"
    ∧ stable_json_dumps .jinf = "Infinity"
    ∧ stable_json_dumps .jninf = "-Infinity" := by
  refine ⟨?_, by decide, fun sha v₁ v₂ h => congrArg sha h, rfl, rfl, rfl⟩
  intro kvs₁ kvs₂ hperm hnd
  have hnd' : ((kvs₁.map (fun e => (e.1, serialize e.2))).map Prod.fst).Nodup := by
    rw [List.map_map]
    exact hnd
  have hsort : sortEntries (kvs₁.map (fun e => (e.1, serialize e.2)))
      = sortEntries (kvs₂.map (fun e => (e.1, serialize e.2))) :=
    sortEntries_eq_of_perm hperm hnd'
  simp only [stable_json_dumps, jobjL, serialize, serializeObj_ofList, hsort]

/-- Claim C7 witness: two key orders of the same object serialize equal. -/
theorem claim_C7_canonical_encoder_witness :
    stable_json_dumps (jobjL [("b", .jint 1), ("a", .jint 2)])
      = stable_json_dumps (jobjL [("a", .jint 2), ("b", .jint 1)]) :=
  claim_C7_canonical_encoder.1 [("b", .jint 1), ("a", .jint 2)] [("a", .jint 2), ("b", .jint 1)]
    (by decide) (by decide)

/-- Claim C7 counterexample: the serializer does not reject non-finite
numeric values — it emits the (non-JSON) tokens `NaN`, `Infinity`,
`-Infinity`, because the source calls `json.dumps` without
`allow_nan=False`. -/
theorem claim_C7_counterexample :
    stable_json_dumps .jnan = "NaN"
    ∧ stable_json_dumps .jinf = "Infinity"
    ∧ stable_json_dumps .jninf = "-Infinity" := ⟨rfl, rfl, rfl⟩

end GRC

namespace GRC

/-- The per-invocation inputs of `compute` (everything except the wall clock
and the database). -/
structure ComputeArgs where
  sha : String → String
  git : String
  pkg : String
  cfg : PipelineConfig
  bid : String
  hid : String
  as_of : Date
  logic_version : String
  manifest_out : String

def ComputeArgs.config_hash (a : ComputeArgs) : String :=
  a.sha (stable_json_dumps (dsParamsJ a.cfg))

def ComputeArgs.idemJ (a : ComputeArgs) : JVal :=
  idempotencyKeyJ a.bid a.hid a.as_of a.logic_version a.config_hash

def ComputeArgs.run_id (a : ComputeArgs) : String :=
  (a.sha (stable_json_dumps a.idemJ)).take 32

def ComputeArgs.boundary_hash (a : ComputeArgs) (b : BoundaryRow) : String :=
  a.sha (b.geometry_geojson.getD "")

def ComputeArgs.herd_hash (a : ComputeArgs) (h : HerdRow) : String :=
  a.sha (pyOrStr h.config_snapshot_json "\x7b\x7d")

def ComputeArgs.inputsJ (a : ComputeArgs) (b : BoundaryRow) (h : HerdRow) (feat : FeatRow) : JVal :=
  inputsSnapshotJ a.bid (a.boundary_hash b) a.hid (a.herd_hash h) h feat
    (provOf a.hid a.as_of feat) a.cfg a.config_hash

def ComputeArgs.snap_id (a : ComputeArgs) (b : BoundaryRow) (h : HerdRow) (feat : FeatRow) : String :=
  a.sha (stable_json_dumps (snapshotMaterialJ a.git a.pkg a.run_id a.idemJ (a.inputsJ b h feat)
    (dqJ a.cfg (calcOf h feat a.as_of).days_remaining (provOf a.hid a.as_of feat))
    (outputsJ (calcOf h feat a.as_of))))

def ComputeArgs.out_path (a : ComputeArgs) (b : BoundaryRow) (h : HerdRow) (feat : FeatRow) : String :=
  a.manifest_out ++ "/" ++ a.bid ++ "/" ++ a.as_of.toIso ++ "_" ++ a.snap_id b h feat ++ ".json"

def ComputeArgs.payload (a : ComputeArgs) (b : BoundaryRow) (h : HerdRow) (feat : FeatRow) : String :=
  stable_json_dumps (payloadJ (a.snap_id b h feat) (a.out_path b h feat) feat
    (a.boundary_hash b) (a.herd_hash h) a.logic_version a.cfg a.config_hash a.idemJ a.git a.pkg
    (a.sha (stable_json_dumps (a.inputsJ b h feat))))

def ComputeArgs.pred (a : ComputeArgs) : RecoRow → Bool :=
  recMatches a.bid a.hid a.as_of a.logic_version a.config_hash

def ComputeArgs.newRow (a : ComputeArgs) (b : BoundaryRow) (h : HerdRow) (feat : FeatRow)
    (next : ℕ) (now : String) : RecoRow :=
  ⟨next, a.bid, a.hid, a.as_of, (calcOf h feat a.as_of).available_forage_kg,
   (calcOf h feat a.as_of).daily_consumption_kg, (calcOf h feat a.as_of).days_remaining,
   (calcOf h feat a.as_of).recommended_move_date, a.logic_version, a.config_hash,
   some (a.payload b h feat), now⟩

def ComputeArgs.outOf (a : ComputeArgs) (b : BoundaryRow) (h : HerdRow) (feat : FeatRow)
    (rec_id : ℕ) : ComputeOut :=
  ⟨rec_id, a.snap_id b h feat, a.out_path b h feat, a.run_id, a.logic_version, a.config_hash⟩

/-- A fresh invocation (no stored row under the 5-tuple key) inserts the new
ledger row and succeeds. -/
theorem compute_fresh (a : ComputeArgs) (now : String) (st : DB) (b : BoundaryRow)
    (h : HerdRow) (feat : FeatRow)
    (hb : dbFindBoundary st a.bid = some b)
    (hh : dbFindHerd st a.hid = some h)
    (hf : dbFindFeature st a.bid a.as_of = some feat)
    (hnone : st.recos.find? a.pred = none) :
    compute a.sha a.git a.pkg a.cfg now a.bid a.hid a.as_of a.logic_version a.manifest_out st
      = .ok ({ st with
                 recos := st.recos ++ [a.newRow b h feat st.next_rec_id now],
                 next_rec_id := st.next_rec_id + 1 },
             a.outOf b h feat st.next_rec_id) := by
  have hrec := compute_grazing_recommendation_eq st a.bid a.hid a.as_of h feat hh hf
  have hfind : (st.recos ++ [a.newRow b h feat st.next_rec_id now]).find? a.pred
      = some (a.newRow b h feat st.next_rec_id now) := by
    rw [List.find?_append, hnone]
    simp [ComputeArgs.pred, ComputeArgs.newRow, recMatches, List.find?]
  simp only [compute, hb, hh, hf, hrec]
  simp only [ComputeArgs.pred, ComputeArgs.config_hash, ComputeArgs.newRow, ComputeArgs.payload,
    ComputeArgs.out_path, ComputeArgs.snap_id, ComputeArgs.inputsJ, ComputeArgs.idemJ,
    ComputeArgs.run_id, ComputeArgs.boundary_hash, ComputeArgs.herd_hash,
    ComputeArgs.outOf] at hnone hfind ⊢
  rw [hnone]
  simp only [Option.isSome_none, Bool.false_eq_true, if_false, hfind]
  rw [if_neg (by rintro ⟨-, hc⟩; exact hc rfl)]

end GRC

namespace GRC

/-- An invocation that finds a stored row under the 5-tuple key leaves the
database unchanged: it errors with the drift error when the stored payload is
nonempty and different, and otherwise reports the stored row's id with the
recomputed snapshot identity. -/
theorem compute_existing (a : ComputeArgs) (now : String) (st : DB) (b : BoundaryRow)
    (h : HerdRow) (feat : FeatRow) (r : RecoRow)
    (hb : dbFindBoundary st a.bid = some b)
    (hh : dbFindHerd st a.hid = some h)
    (hf : dbFindFeature st a.bid a.as_of = some feat)
    (hfind : st.recos.find? a.pred = some r) :
    compute a.sha a.git a.pkg a.cfg now a.bid a.hid a.as_of a.logic_version a.manifest_out st
      = if (r.input_data_versions_json.getD "") ≠ ""
           ∧ (r.input_data_versions_json.getD "") ≠ a.payload b h feat
        then .error .provenanceDrift
        else .ok (st, a.outOf b h feat r.id) := by
  have hrec := compute_grazing_recommendation_eq st a.bid a.hid a.as_of h feat hh hf
  simp only [compute, hb, hh, hf, hrec]
  simp only [ComputeArgs.pred, ComputeArgs.config_hash, ComputeArgs.payload,
    ComputeArgs.out_path, ComputeArgs.snap_id, ComputeArgs.inputsJ, ComputeArgs.idemJ,
    ComputeArgs.run_id, ComputeArgs.boundary_hash, ComputeArgs.herd_hash,
    ComputeArgs.outOf] at hfind ⊢
  rw [hfind]
  simp only [Option.isSome_some, eq_self_iff_true, if_true]
  rw [hfind]

end GRC

namespace GRC

/-- Every serialized object is a nonempty string (it starts with a brace). -/
theorem serialize_jobj_ne_empty (kvs : JObj) : serialize (.jobj kvs) ≠ "" := by
  intro hc
  have hl := congrArg String.length hc
  rw [serialize] at hl
  simp [String.length_append] at hl
  exact absurd hl.1.1 (by decide)

/-- Claim C1: with the preconditions satisfied (boundary, herd config and
feature row present) and no prior row under the 5-tuple key, invoking compute
twice on the unchanged data — at arbitrary, possibly different wall-clock
times — succeeds both times, leaves exactly one ledger row under the
`(boundary_id, herd_config_id, calculation_date, model_version,
config_version)` key, leaves the database unchanged on the second call, and
reports identical `run_id`, `snapshot_id` and manifest path (indeed an
identical output record). -/
theorem claim_C1_compute_idempotent :
    ∀ (a : ComputeArgs) (now₁ now₂ : String) (st : DB) (b : BoundaryRow) (h : HerdRow)
      (feat : FeatRow),
      dbFindBoundary st a.bid = some b →
      dbFindHerd st a.hid = some h →
      dbFindFeature st a.bid a.as_of = some feat →
      st.recos.countP a.pred = 0 →
      ∃ st₁ out₁ st₂ out₂,
        compute a.sha a.git a.pkg a.cfg now₁ a.bid a.hid a.as_of a.logic_version a.manifest_out st
          = .ok (st₁, out₁)
        ∧ compute a.sha a.git a.pkg a.cfg now₂ a.bid a.hid a.as_of a.logic_version a.manifest_out st₁
          = .ok (st₂, out₂)
        ∧ st₁.recos.countP a.pred = 1
        ∧ st₂ = st₁
        ∧ out₂ = out₁
        ∧ out₂.run_id = out₁.run_id
        ∧ out₂.snapshot_id = out₁.snapshot_id
        ∧ out₂.manifest_path = out₁.manifest_path := by
  intro a now₁ now₂ st b h feat hb hh hf hcount
  have hnone : st.recos.find? a.pred = none :=
    List.find?_eq_none.mpr (fun x hx => by
      have hz := List.countP_eq_zero.mp hcount x hx
      simpa using hz)
  have h1 := compute_fresh a now₁ st b h feat hb hh hf hnone
  have hmatch : a.pred (a.newRow b h feat st.next_rec_id now₁) = true := by
    simp [ComputeArgs.pred, ComputeArgs.newRow, recMatches]
  have hfind₁ : (st.recos ++ [a.newRow b h feat st.next_rec_id now₁]).find? a.pred
      = some (a.newRow b h feat st.next_rec_id now₁) := by
    rw [List.find?_append, hnone]
    simp [List.find?, hmatch]
  have h2 := compute_existing a now₂
    ({ st with
       recos := st.recos ++ [a.newRow b h feat st.next_rec_id now₁],
       next_rec_id := st.next_rec_id + 1 })
    b h feat (a.newRow b h feat st.next_rec_id now₁) hb hh hf hfind₁
  have hno : ¬(((a.newRow b h feat st.next_rec_id now₁).input_data_versions_json.getD "") ≠ ""
      ∧ ((a.newRow b h feat st.next_rec_id now₁).input_data_versions_json.getD "")
        ≠ a.payload b h feat) := by
    rintro ⟨-, hc⟩
    exact hc rfl
  rw [if_neg hno] at h2
  have hcnt : (st.recos ++ [a.newRow b h feat st.next_rec_id now₁]).countP a.pred = 1 := by
    rw [List.countP_append, hcount]
    simp [List.countP_cons, hmatch]
  exact ⟨_, _, _, _, h1, h2, hcnt, rfl, rfl, rfl, rfl, rfl⟩

/-- Claim C2: when the re-read row under the 5-tuple key carries a stored
provenance payload (payloads written by compute are always nonempty, second
conjunct) that differs from the payload this invocation computed, compute
hard-fails with the drift error, and — the transaction rolling back — no
state is produced, so the stored row is never overwritten; a version bump
(fresh `logic_version` with no row under the new key) makes the invocation
succeed again. -/
theorem claim_C2_provenance_drift :
    (∀ (a : ComputeArgs) (now : String) (st : DB) (b : BoundaryRow) (h : HerdRow)
        (feat : FeatRow) (r : RecoRow) (p : String),
      dbFindBoundary st a.bid = some b →
      dbFindHerd st a.hid = some h →
      dbFindFeature st a.bid a.as_of = some feat →
      st.recos.find? a.pred = some r →
      r.input_data_versions_json = some p →
      p ≠ "" →
      p ≠ a.payload b h feat →
      compute a.sha a.git a.pkg a.cfg now a.bid a.hid a.as_of a.logic_version a.manifest_out st
        = .error .provenanceDrift)
    ∧ (∀ (a : ComputeArgs) (b : BoundaryRow) (h : HerdRow) (feat : FeatRow),
        a.payload b h feat ≠ "")
    ∧ (∀ (a : ComputeArgs) (now : String) (st : DB) (b : BoundaryRow) (h : HerdRow)
        (feat : FeatRow) (lv' : String),
      dbFindBoundary st a.bid = some b →
      dbFindHerd st a.hid = some h →
      dbFindFeature st a.bid a.as_of = some feat →
      st.recos.find? ({ a with logic_version := lv' } : ComputeArgs).pred = none →
      ∃ st' out',
        compute a.sha a.git a.pkg a.cfg now a.bid a.hid a.as_of lv' a.manifest_out st
          = .ok (st', out')) := by
  refine ⟨?_, ?_, ?_⟩
  · intro a now st b h feat r p hb hh hf hfind hp hne hnp
    have h2 := compute_existing a now st b h feat r hb hh hf hfind
    have hcond : ((r.input_data_versions_json.getD "") ≠ ""
        ∧ (r.input_data_versions_json.getD "") ≠ a.payload b h feat) := by
      rw [hp]
      exact ⟨by simpa using hne, by simpa using hnp⟩
    rw [if_pos hcond] at h2
    exact h2
  · intro a b h feat
    exact serialize_jobj_ne_empty _
  · intro a now st b h feat lv' hb hh hf hnone
    exact ⟨_, _, compute_fresh ({ a with logic_version := lv' }) now st b h feat hb hh hf hnone⟩

/-- Claim C10: with the preconditions satisfied and a row stored under the
5-tuple key, the drift error is raised IFF the stored payload is non-NULL,
nonempty and different from the recomputed payload; a stored payload of NULL
or the empty string never triggers the drift error — the invocation succeeds
and leaves the row as it was. -/
theorem claim_C10_drift_gap :
    ∀ (a : ComputeArgs) (now : String) (st : DB) (b : BoundaryRow) (h : HerdRow)
      (feat : FeatRow) (r : RecoRow),
      dbFindBoundary st a.bid = some b →
      dbFindHerd st a.hid = some h →
      dbFindFeature st a.bid a.as_of = some feat →
      st.recos.find? a.pred = some r →
      ((compute a.sha a.git a.pkg a.cfg now a.bid a.hid a.as_of a.logic_version a.manifest_out st
          = .error .provenanceDrift)
        ↔ (∃ p, r.input_data_versions_json = some p ∧ p ≠ "" ∧ p ≠ a.payload b h feat))
      ∧ ((r.input_data_versions_json = none ∨ r.input_data_versions_json = some "") →
          compute a.sha a.git a.pkg a.cfg now a.bid a.hid a.as_of a.logic_version a.manifest_out st
            = .ok (st, a.outOf b h feat r.id)) := by
  intro a now st b h feat r hb hh hf hfind
  have h2 := compute_existing a now st b h feat r hb hh hf hfind
  constructor
  · constructor
    · intro herr
      by_cases hc : ((r.input_data_versions_json.getD "") ≠ ""
          ∧ (r.input_data_versions_json.getD "") ≠ a.payload b h feat)
      · cases hr : r.input_data_versions_json with
        | none =>
          rw [hr] at hc
          simp at hc
        | some p =>
          rw [hr] at hc
          exact ⟨p, rfl, by simpa using hc.1, by simpa using hc.2⟩
      · rw [if_neg hc] at h2
        rw [h2] at herr
        simp at herr
    · rintro ⟨p, hr, hne, hnp⟩
      have hcond : ((r.input_data_versions_json.getD "") ≠ ""
          ∧ (r.input_data_versions_json.getD "") ≠ a.payload b h feat) := by
        rw [hr]
        exact ⟨by simpa using hne, by simpa using hnp⟩
      rw [if_pos hcond] at h2
      exact h2
  · intro hor
    have hcond : ¬(((r.input_data_versions_json.getD "") ≠ ""
        ∧ (r.input_data_versions_json.getD "") ≠ a.payload b h feat)) := by
      rcases hor with hr | hr <;> rw [hr] <;> simp
    rw [if_neg hcond] at h2
    exact h2

end GRC

namespace GRC

theorem string_head_ne {s t : String} (h : s.data.head? ≠ t.data.head?) : s ≠ t :=
  fun he => h (by rw [he])

/-- A serialized object starts with the opening brace. -/
theorem serialize_jobj_head (kvs : JObj) :
    (serialize (.jobj kvs)).data.head? = some (Char.ofNat 123) := by
  rw [serialize, String.data_append, String.data_append]
  have h123 : ("\x7b" : String).data = [Char.ofNat 123] := by decide
  rw [h123]
  rfl

theorem payloadJ_head (s p : String) (feat : FeatRow) (bh hh lv : String)
    (cfg : PipelineConfig) (ch : String) (idem : JVal) (git pkg ih : String) :
    (stable_json_dumps (payloadJ s p feat bh hh lv cfg ch idem git pkg ih)).data.head?
      = some (Char.ofNat 123) :=
  serialize_jobj_head _

/-- Any string that does not start with a brace differs from a computed
provenance payload. -/
theorem ne_payload_of_head (a : ComputeArgs) (b : BoundaryRow) (h : HerdRow) (feat : FeatRow)
    {s : String} (hs : s.data.head? ≠ some (Char.ofNat 123)) : s ≠ a.payload b h feat := by
  apply string_head_ne
  rw [ComputeArgs.payload, payloadJ_head]
  exact hs

end GRC

namespace GRC

/-- The concrete argument bundle used by the compute witnesses. -/
def exArgs : ComputeArgs :=
  ⟨fun s => s, "g", "p", {}, "b1", "h1", ⟨2024, 1, 1⟩, "days_remaining:v1", "out"⟩

/-- Claim C1 witness: two concrete invocations over the one-row database. -/
theorem claim_C1_compute_idempotent_witness :
    ∃ st₁ out₁ st₂ out₂,
      compute exArgs.sha "g" "p" {} "t1" "b1" "h1" ⟨2024, 1, 1⟩ "days_remaining:v1" "out" exDB
        = .ok (st₁, out₁)
      ∧ compute exArgs.sha "g" "p" {} "t2" "b1" "h1" ⟨2024, 1, 1⟩ "days_remaining:v1" "out" st₁
        = .ok (st₂, out₂)
      ∧ st₁.recos.countP exArgs.pred = 1
      ∧ st₂ = st₁ ∧ out₂ = out₁ := by
  obtain ⟨st₁, out₁, st₂, out₂, h1, h2, hcnt, hst, hout, -, -, -⟩ :=
    claim_C1_compute_idempotent exArgs "t1" "t2" exDB ⟨"b1", some "geo"⟩ exHerd exFeat
      (by rfl) (by rfl) (by rfl) (by rfl)
  exact ⟨st₁, out₁, st₂, out₂, h1, h2, hcnt, hst, hout⟩

/-- The pre-existing ledger row used by the drift witnesses: same 5-tuple key
as `exArgs`, a chosen stored payload. -/
def exReco (payload : Option String) : RecoRow :=
  ⟨1, "b1", "h1", ⟨2024, 1, 1⟩, 0, 0, 0, "2024-01-01", "days_remaining:v1",
   exArgs.config_hash, payload, "t0"⟩

theorem exReco_pred (payload : Option String) : exArgs.pred (exReco payload) = true := by
  simp [ComputeArgs.pred, exReco, exArgs, recMatches]

/-- Claim C2 witness: a stored row with payload `"x"` under the same key
makes the same invocation fail with the drift error. -/
theorem claim_C2_provenance_drift_witness :
    compute exArgs.sha "g" "p" {} "t1" "b1" "h1" ⟨2024, 1, 1⟩ "days_remaining:v1" "out"
        { exDB with recos := [exReco (some "x")] }
      = .error .provenanceDrift := by
  refine claim_C2_provenance_drift.1 exArgs "t1" _ ⟨"b1", some "geo"⟩ exHerd exFeat
    (exReco (some "x")) "x" (by rfl) (by rfl) (by rfl) ?_ rfl (by decide) ?_
  · exact List.find?_cons_of_pos _ (exReco_pred (some "x"))
  · exact ne_payload_of_head exArgs ⟨"b1", some "geo"⟩ exHerd exFeat (by decide)

/-- Claim C10 witness: a stored row with NULL payload under the same key
does not trigger the drift error — the invocation succeeds unchanged. -/
theorem claim_C10_drift_gap_witness :
    ∃ out,
      compute exArgs.sha "g" "p" {} "t1" "b1" "h1" ⟨2024, 1, 1⟩ "days_remaining:v1" "out"
          { exDB with recos := [exReco none] }
        = .ok ({ exDB with recos := [exReco none] }, out) := by
  refine ⟨_, (claim_C10_drift_gap exArgs "t1" _ ⟨"b1", some "geo"⟩ exHerd exFeat (exReco none)
    (by rfl) (by rfl) (by rfl) ?_).2 (Or.inl rfl)⟩
  exact List.find?_cons_of_pos _ (exReco_pred none)

end GRC
